import Mathlib

/-!
Verification development for the HTML backend of the docling repository
(`src/docling/backend/html_backend.py`).

The Python source is shallowly embedded: the element tree produced by the
markup parser becomes the inductive type `PNode`; the conversion state held
on the backend object (`self.level`, `self.parents`, `self.ctx`,
`self.content_layer`) becomes the structure `ConvState`; the output
`DoclingDocument` becomes a list of `DocNode` records, where a node's
handle (`self_ref`) is its index in that list; Python code that can raise
is embedded in `Except String`, the error string naming the Python
exception class.  Machine integers are `Int`/`Nat` (Python integers are
unbounded, so no wrap-around modelling is needed).
-/

/-- An element tree node: either a text node (`NavigableString`) or a tag
with a name, an attribute map and ordered children. -/
inductive PNode where
  | text (s : String)
  | tag (name : String) (attrs : List (String × String)) (children : List PNode)

namespace PNode

/-- Tag name of a node; text nodes have no name (`None` in bs4, never
consulted on the paths we model). -/
def nameOf : PNode → String
  | .text _ => ""
  | .tag n _ _ => n

/-- Attribute list of a node. -/
def attrsOf : PNode → List (String × String)
  | .text _ => []
  | .tag _ a _ => a

/-- Children of a node. -/
def childrenOf : PNode → List PNode
  | .text _ => []
  | .tag _ _ c => c

/-- Whether the node is a `Tag` (as opposed to a `NavigableString`). -/
def isTag : PNode → Bool
  | .text _ => false
  | .tag _ _ _ => true

end PNode

/-- `cell.get(key, default)`: attribute lookup with a default. -/
def attrGet (attrs : List (String × String)) (key dflt : String) : String :=
  match attrs.lookup key with
  | some v => v
  | none => dflt

/-- Strip leading and trailing whitespace from a character list
(Python `str.strip()`). -/
def trimData (l : List Char) : List Char :=
  ((l.dropWhile Char.isWhitespace).reverse.dropWhile Char.isWhitespace).reverse

/-- Python `str.strip()`. -/
def pyStrip (s : String) : String :=
  String.mk (trimData s.data)

/-- Numeric value of a digit string. -/
def digitsToNat (l : List Char) : Nat :=
  l.foldl (fun a c => a * 10 + (c.toNat - '0'.toNat)) 0

/-- Python `str.isnumeric()` restricted to ASCII input: non-empty and all
characters are digits.  (Exotic Unicode numerics are outside the model.) -/
def pyIsNumeric (s : String) : Bool :=
  !s.data.isEmpty && s.data.all Char.isDigit

/-- Python `int(str)`: optional surrounding whitespace, an optional sign,
then a non-empty digit string; `none` models the `ValueError` raise. -/
def pyInt (s : String) : Option Int :=
  match trimData s.data with
  | '-' :: d =>
      if !d.isEmpty && d.all Char.isDigit then some (-(digitsToNat d : Int)) else none
  | '+' :: d =>
      if !d.isEmpty && d.all Char.isDigit then some ((digitsToNat d : Int)) else none
  | d =>
      if !d.isEmpty && d.all Char.isDigit then some ((digitsToNat d : Int)) else none

mutual
/-- Matching tags in the subtree rooted at a node, the node itself
included, in document (preorder) order. -/
def find_all_sub (names : List String) : PNode → List PNode
  | .text _ => []
  | .tag n a cs =>
      (if n ∈ names then [PNode.tag n a cs] else []) ++ find_all_list names cs

/-- `find_all_sub` over a list of sibling subtrees. -/
def find_all_list (names : List String) : List PNode → List PNode
  | [] => []
  | c :: cs => find_all_sub names c ++ find_all_list names cs
end

/-- bs4 `element.find_all(names)` / `element(names)`: all descendant tags
whose name is in `names`, in document (preorder) order, the element itself
excluded. -/
def find_all (names : List String) (t : PNode) : List PNode :=
  find_all_list names t.childrenOf

/-- bs4 `element.find(names)`: first matching descendant tag, if any. -/
def find_first (names : List String) (t : PNode) : Option PNode :=
  (find_all names t).head?

mutual
/-- bs4 `.text` / `get_text()`: concatenation of every string in the
subtree, in document order, with no separator. -/
def pyText : PNode → String
  | .text s => s
  | .tag _ _ cs => pyTextList cs

/-- `pyText` over a list of sibling subtrees. -/
def pyTextList : List PNode → String
  | [] => ""
  | c :: cs => pyText c ++ pyTextList cs
end

/-- Python `str.split()` (no separator): whitespace-delimited words. -/
def wordsData : List Char → List Char → List (List Char)
  | [], acc => if acc.isEmpty then [] else [acc.reverse]
  | c :: rest, acc =>
    if c.isWhitespace then
      if acc.isEmpty then wordsData rest [] else acc.reverse :: wordsData rest []
    else wordsData rest (c :: acc)

/-- `" ".join(words)`. -/
def joinWords : List (List Char) → String
  | [] => ""
  | [w] => String.mk w
  | w :: ws => String.mk w ++ " " ++ joinWords ws

/-- Python `" ".join(text.split())`: collapse whitespace runs to single
spaces, dropping leading/trailing whitespace. -/
def pyCollapseWs (s : String) : String :=
  joinWords (wordsData s.data [])

/-- Python `text.split("$$")`: split on the two-character separator,
leftmost-first. -/
def splitDollars : List Char → List Char → List String
  | [], acc => [String.mk acc.reverse]
  | '$' :: '$' :: rest, acc => String.mk acc.reverse :: splitDollars rest []
  | c :: rest, acc => splitDollars rest (c :: acc)

/-- `HTMLDocumentBackend._get_cell_spans`: extract `(colspan, rowspan)`.
Faithful to the source, including its quirk: both components are guarded
by `raw_spans[0].isnumeric()` — the colspan's test — so when the colspan
string is numeric the rowspan string is fed to `int()` unconditionally,
which raises `ValueError` on a non-numeric rowspan (modelled as
`.error`); and when the colspan string is non-numeric both spans default
to 1 regardless of the rowspan string. -/
def _get_cell_spans (cell : PNode) : Except String (Nat × Int) :=
  let raw0 := attrGet cell.attrsOf "colspan" "1"
  let raw1 := attrGet cell.attrsOf "rowspan" "1"
  if pyIsNumeric raw0 then
    match pyInt raw1 with
    | some r => .ok (digitsToNat raw0.data, r)
    | none => .error "ValueError"
  else .ok (1, 1)

/-- One emitted `TableCell` record. -/
structure TableCellM where
  text : String
  row_span : Int
  col_span : Int
  start_row_offset_idx : Int
  end_row_offset_idx : Int
  start_col_offset_idx : Int
  end_col_offset_idx : Int
  column_header : Bool
  row_header : Bool
deriving Repr, DecidableEq

/-- The returned `TableData` record. -/
structure TableDataM where
  num_rows : Nat
  num_cols : Nat
  table_cells : List TableCellM
deriving Repr, DecidableEq

/-- Sizing pass, inner loop over the cells of one row: accumulates the
summed column span and the `is_row_header` flag
(`if cell_tag.name == "td" or row_span == 1: is_row_header = False`). -/
def sizing_cells : List PNode → Nat → Bool → Except String (Nat × Bool)
  | [], colCount, isHdr => .ok (colCount, isHdr)
  | cell :: rest, colCount, isHdr =>
    match _get_cell_spans cell with
    | .error e => .error e
    | .ok (cs, rs) =>
        sizing_cells rest (colCount + cs)
          (isHdr && !(cell.nameOf == "td" || rs == 1))

/-- Sizing pass, outer loop over rows: `num_rows` counts rows that are not
row-header rows, `num_cols` is the max summed column span. -/
def sizing_rows : List PNode → Nat → Nat → Except String (Nat × Nat)
  | [], numRows, numCols => .ok (numRows, numCols)
  | row :: rest, numRows, numCols =>
    match sizing_cells (find_all ["td", "th"] row) 0 true with
    | .error e => .error e
    | .ok (colCount, isHdr) =>
        sizing_rows rest (if isHdr then numRows else numRows + 1)
          (max numCols colCount)

/-- The placement grid: `num_rows` lists of `num_cols` slots, `some text`
when occupied. -/
abbrev Grid := List (List (Option String))

/-- Python list read `grid[i]` with an `Int` index: wraps negative indices,
raises `IndexError` (modelled as `.error`) when out of range. -/
def pyGetRow (grid : Grid) (i : Int) : Except String (List (Option String)) :=
  let n : Int := grid.length
  if 0 ≤ i ∧ i < n then .ok (grid.getD i.toNat [])
  else if -n ≤ i ∧ i < 0 then .ok (grid.getD (i + n).toNat [])
  else .error "IndexError"

/-- Python list read `row[j]` with a `Nat` index. -/
def pyGetCell (row : List (Option String)) (j : Nat) : Except String (Option String) :=
  match row.get? j with
  | some v => .ok v
  | none => .error "IndexError"

/-- Python list write `grid[i][j] = v` with an `Int` row index (wrapping
negative indices like Python). -/
def pySetGrid (grid : Grid) (i : Int) (j : Nat) (v : Option String) :
    Except String Grid :=
  let n : Int := grid.length
  if 0 ≤ i ∧ i < n then
    .ok (grid.set i.toNat ((grid.getD i.toNat []).set j v))
  else if -n ≤ i ∧ i < 0 then
    .ok (grid.set (i + n).toNat ((grid.getD (i + n).toNat []).set j v))
  else .error "IndexError"

/-- Helper for `intRange`: `n` consecutive integers starting at `lo`. -/
def intRangeAux : Nat → Int → List Int
  | 0, _ => []
  | n + 1, lo => lo :: intRangeAux n (lo + 1)

/-- `range(lo, hi)` over integers. -/
def intRange (lo hi : Int) : List Int :=
  intRangeAux (hi - lo).toNat lo

/-- The column-cursor `while` loop:
`while col_idx < num_cols and grid[row_idx + start_row_span][col_idx] is not None: col_idx += 1`.
`fuel` bounds the iterations; every call site passes `num_cols + 1`, which
exceeds the at most `num_cols - col_idx` possible iterations. -/
def advance_col (grid : Grid) (r : Int) (numCols : Nat) :
    Nat → Nat → Except String Nat
  | 0, colIdx => .ok colIdx
  | fuel + 1, colIdx =>
    if colIdx < numCols then
      match pyGetRow grid r with
      | .error e => .error e
      | .ok rowL =>
        match pyGetCell rowL colIdx with
        | .error e => .error e
        | .ok none => .ok colIdx
        | .ok (some _) => advance_col grid r numCols fuel (colIdx + 1)
    else .ok colIdx

/-- The marking loop: for `r` in `range(start_row_span, start_row_span +
row_span)` and `c` in `range(col_span)`, write `text` at
`grid[row_idx + r][col_idx + c]` when `row_idx + r < num_rows` and
`col_idx + c < num_cols` (upper bounds only, as in the source). -/
def mark_grid (rowIdx : Int) (colIdx : Nat) (numRows numCols : Nat)
    (text : String) (rs : List Int) (cspan : Nat) (grid : Grid) :
    Except String Grid :=
  rs.foldlM (fun g r =>
    (List.range cspan).foldlM (fun g2 c =>
      if rowIdx + r < (numRows : Int) ∧ colIdx + c < numCols then
        pySetGrid g2 (rowIdx + r) (colIdx + c) (some text)
      else .ok g2) g) grid

/-- Placement pass, header-classification loop over the cells of one row:
computes `(col_header, row_header)`; note span extraction runs (and can
raise) for every cell before the name test. -/
def placement_header : List PNode → Bool → Bool → Except String (Bool × Bool)
  | [], ch, rh => .ok (ch, rh)
  | cell :: rest, ch, rh =>
    match _get_cell_spans cell with
    | .error e => .error e
    | .ok (_, rs) =>
      if cell.nameOf == "td" then placement_header rest false false
      else if rs == 1 then placement_header rest ch false
      else placement_header rest ch rh

mutual
/-- The inline-formula normalization applied to a cell before its text is
read: every `inline-formula` descendant whose text splits on `"$$"` into
exactly three parts is replaced by the text node `"$$<middle>$$"`.
(Inline formulas nested inside inline formulas are not modelled.) -/
def rewrite_formulas : PNode → PNode
  | .text s => .text s
  | .tag n a cs =>
    if n == "inline-formula" then
      let parts := splitDollars (pyTextList cs).data []
      if parts.length == 3 then .text ("$$" ++ parts.getD 1 "" ++ "$$")
      else .tag n a (rewrite_formulas_list cs)
    else .tag n a (rewrite_formulas_list cs)

/-- `rewrite_formulas` over a list of sibling subtrees. -/
def rewrite_formulas_list : List PNode → List PNode
  | [] => []
  | c :: cs => rewrite_formulas c :: rewrite_formulas_list cs
end

/-- Placement pass, inner loop over the cells of one row: advances the
column cursor, marks the grid, and emits one `TableCellM` per cell. -/
def place_cells (rowIdx : Int) (srs : Nat) (rowHeader colHeader : Bool)
    (numRows numCols : Nat) :
    List PNode → Grid → Nat → List TableCellM →
    Except String (Grid × List TableCellM)
  | [], grid, _, acc => .ok (grid, acc)
  | cell :: rest, grid, colIdx, acc =>
    let text := pyText (rewrite_formulas cell)
    match _get_cell_spans cell with
    | .error e => .error e
    | .ok (cspan, rspan0) =>
      let rspan : Int := if rowHeader then rspan0 - 1 else rspan0
      match advance_col grid (rowIdx + srs) numCols (numCols + 1) colIdx with
      | .error e => .error e
      | .ok col =>
        match mark_grid rowIdx col numRows numCols text
            (intRange srs ((srs : Int) + rspan)) cspan grid with
        | .error e => .error e
        | .ok grid2 =>
          let c : TableCellM :=
            { text := text
              row_span := rspan
              col_span := (cspan : Int)
              start_row_offset_idx := (srs : Int) + rowIdx
              end_row_offset_idx := (srs : Int) + rowIdx + rspan
              start_col_offset_idx := (col : Int)
              end_col_offset_idx := (col : Int) + (cspan : Int)
              column_header := colHeader
              row_header := !colHeader && cell.nameOf == "th" }
          place_cells rowIdx srs rowHeader colHeader numRows numCols
            rest grid2 col (acc ++ [c])

/-- Placement pass, outer loop over rows, threading `row_idx` (starts at
`-1`) and `start_row_span` through the classification update. -/
def place_rows (numRows numCols : Nat) :
    List PNode → Grid → Int → Nat → List TableCellM →
    Except String (List TableCellM)
  | [], _, _, _, acc => .ok acc
  | row :: rest, grid, rowIdx, srs, acc =>
    let cells := find_all ["td", "th"] row
    match placement_header cells true true with
    | .error e => .error e
    | .ok (colHeader, rowHeader) =>
      let rowIdx2 : Int := if rowHeader then rowIdx else rowIdx + 1
      let srs2 : Nat := if rowHeader then srs + 1 else 0
      match place_cells rowIdx2 srs2 rowHeader colHeader numRows numCols
          cells grid 0 [] with
      | .error e => .error e
      | .ok (grid2, emitted) =>
          place_rows numRows numCols rest grid2 rowIdx2 srs2 (acc ++ emitted)

/-- `HTMLDocumentBackend.parse_table_data`: returns `.ok none` for a table
containing a nested table (the caller then skips it), `.ok (some data)` on
success, and `.error` when the Python code would raise. -/
def parse_table_data (element : PNode) : Except String (Option TableDataM) :=
  match find_first ["table"] element with
  | some _ => .ok none
  | none =>
    match sizing_rows (find_all ["tr"] element) 0 0 with
    | .error e => .error e
    | .ok (numRows, numCols) =>
      let grid : Grid := List.replicate numRows (List.replicate numCols none)
      match place_rows numRows numCols (find_all ["tr"] element) grid (-1) 0 [] with
      | .error e => .error e
      | .ok cells => .ok (some ⟨numRows, numCols, cells⟩)

/-! ## Cell rectangles and disjointness -/

/-- The (row, col) rectangle claimed by a cell, via its start/end offsets. -/
def cellRect (c : TableCellM) : Set (Int × Int) :=
  {p | c.start_row_offset_idx ≤ p.1 ∧ p.1 < c.end_row_offset_idx ∧
       c.start_col_offset_idx ≤ p.2 ∧ p.2 < c.end_col_offset_idx}

/-! ## Concrete tables used as inputs -/

/-- `<table><tr><td>a</td><td rowspan="2">b</td></tr><tr><td colspan="2">c</td></tr></table>` -/
def tableOverlap : PNode := .tag "table" [] [
  .tag "tr" [] [.tag "td" [] [.text "a"], .tag "td" [("rowspan", "2")] [.text "b"]],
  .tag "tr" [] [.tag "td" [("colspan", "2")] [.text "c"]]]

/-- The first cell emitted for `tableOverlap`. -/
def cellA : TableCellM :=
  { text := "a", row_span := 1, col_span := 1,
    start_row_offset_idx := 0, end_row_offset_idx := 1,
    start_col_offset_idx := 0, end_col_offset_idx := 1,
    column_header := false, row_header := false }

/-- The second cell emitted for `tableOverlap` (the `rowspan="2"` cell). -/
def cellB : TableCellM :=
  { text := "b", row_span := 2, col_span := 1,
    start_row_offset_idx := 0, end_row_offset_idx := 2,
    start_col_offset_idx := 1, end_col_offset_idx := 2,
    column_header := false, row_header := false }

/-- The third cell emitted for `tableOverlap` (the `colspan="2"` cell). -/
def cellC : TableCellM :=
  { text := "c", row_span := 1, col_span := 2,
    start_row_offset_idx := 1, end_row_offset_idx := 2,
    start_col_offset_idx := 0, end_col_offset_idx := 2,
    column_header := false, row_header := false }

/-- `<table><tr><th rowspan="2">x</th></tr></table>`: its only physical row
is a row-header row, so the sizing pass computes `num_rows = 0`. -/
def tableAllHeaderRows : PNode := .tag "table" [] [
  .tag "tr" [] [.tag "th" [("rowspan", "2")] [.text "x"]]]

/-- A table whose trailing physical row is a row-header row. -/
def tableTrailingHeaderRow : PNode := .tag "table" [] [
  .tag "tr" [] [.tag "td" [] [.text "a"]],
  .tag "tr" [] [.tag "th" [("rowspan", "2")] [.text "x"]]]

/-- C2. The row-span guard in `_get_cell_spans` reuses the colspan's
`isnumeric` test: with a numeric colspan and a non-numeric rowspan the
extraction raises `ValueError` instead of defaulting the rowspan to 1, and
with a non-numeric colspan a perfectly numeric rowspan is discarded and
both spans become 1.  This contradicts the function's own docstring
("If the attribute does not exist or it is not numeric, it defaults
to 1"), so the code, not the claim, is at fault. -/
theorem C2_span_extraction_raises :
    _get_cell_spans (.tag "td" [("colspan", "2"), ("rowspan", "x")] [])
        = .error "ValueError"
    ∧ _get_cell_spans (.tag "td" [("colspan", "y"), ("rowspan", "5")] [])
        = .ok (1, 1)
    ∧ _get_cell_spans (.tag "td" [] []) = .ok (1, 1) :=
  ⟨rfl, rfl, rfl⟩

/-- C10. `parse_table_data` raises `IndexError` (it does not return a
`TableData`) on tables whose rows are all row-header rows, and on tables
with a trailing row-header row: the column-cursor `while` loop reads
`grid[row_idx + start_row_span]` without checking that index against
`num_rows`, which excludes all row-header rows. -/
theorem C10_parse_table_data_raises :
    parse_table_data tableAllHeaderRows = .error "IndexError"
    ∧ parse_table_data tableTrailingHeaderRow = .error "IndexError" :=
  ⟨rfl, rfl⟩

/-- C1 counterexample. On `tableOverlap` the parse succeeds and emits the
cells `cellB` and `cellC`, two distinct cells whose offset rectangles both
contain the grid point `(1, 1)`: the no-overlap invariant is false. -/
theorem C1_counterexample :
    parse_table_data tableOverlap = .ok (some ⟨2, 2, [cellA, cellB, cellC]⟩)
    ∧ cellB ≠ cellC
    ∧ (1, 1) ∈ cellRect cellB ∧ (1, 1) ∈ cellRect cellC
    ∧ ¬ Disjoint (cellRect cellB) (cellRect cellC) := by
  refine ⟨rfl, by decide, ?_, ?_, ?_⟩
  · simp [cellRect, cellB]
  · simp [cellRect, cellC]
  · rw [Set.not_disjoint_iff]
    exact ⟨(1, 1), by simp [cellRect, cellB], by simp [cellRect, cellC]⟩

/-! ## C9: the row-header predicate of the sizing pass versus the
placement pass -/

/-- The sizing pass's row-header classification of one physical row
(lines 411-426 of the source). -/
def sizing_is_row_header (row : PNode) : Except String Bool :=
  (sizing_cells (find_all ["td", "th"] row) 0 true).map Prod.snd

/-- The placement pass's row-header classification of one physical row
(lines 444-459 of the source). -/
def placement_is_row_header (row : PNode) : Except String Bool :=
  (placement_header (find_all ["td", "th"] row) true true).map Prod.snd

/-- The two classification loops compute the same row-header flag from any
cell list, whatever the incoming accumulator flags. -/
lemma sizing_placement_agree (cells : List PNode) :
    ∀ (colCount : Nat) (ch rh : Bool),
      (sizing_cells cells colCount rh).map Prod.snd
        = (placement_header cells ch rh).map Prod.snd := by
  induction cells with
  | nil => intro colCount ch rh; rfl
  | cons cell rest ih =>
    intro colCount ch rh
    simp only [sizing_cells, placement_header]
    cases hsp : _get_cell_spans cell with
    | error e => rfl
    | ok p =>
      obtain ⟨cs, rs⟩ := p
      cases htd : (cell.nameOf == "td") <;> cases hrs : (rs == 1) <;>
        simp [htd, hrs] <;> apply ih

/-- The sizing flag after a cell list is: the incoming flag, and no cell in
the list is a `td` or has extracted row span 1. -/
lemma sizing_header_char (cells : List PNode) :
    ∀ (colCount : Nat) (rh : Bool) (n : Nat) (b : Bool),
      sizing_cells cells colCount rh = .ok (n, b) →
      (b = true ↔ (rh = true ∧ ∀ c ∈ cells,
        c.nameOf ≠ "td" ∧ (_get_cell_spans c).map Prod.snd ≠ .ok 1)) := by
  induction cells with
  | nil =>
    intro colCount rh n b h
    simp only [sizing_cells, Except.ok.injEq, Prod.mk.injEq] at h
    obtain ⟨-, rfl⟩ := h
    simp
  | cons cell rest ih =>
    intro colCount rh n b h
    simp only [sizing_cells] at h
    cases hsp : _get_cell_spans cell with
    | error e => rw [hsp] at h; cases h
    | ok p =>
      obtain ⟨cs, rs⟩ := p
      rw [hsp] at h
      rw [ih _ _ _ _ h]
      simp only [List.mem_cons, hsp]
      constructor
      · rintro ⟨hflag, hrest⟩
        have h1 : rh = true ∧ (cell.nameOf == "td") = false ∧ (rs == 1) = false := by
          revert hflag; cases rh <;> cases htd : (cell.nameOf == "td") <;>
            cases hrs : (rs == 1) <;> simp
        obtain ⟨hrh, htd, hrs⟩ := h1
        refine ⟨hrh, ?_⟩
        intro c hc
        rcases hc with rfl | hc
        · refine ⟨by simpa using htd, ?_⟩
          rw [hsp]
          have hrs' : rs ≠ 1 := by simpa using hrs
          simpa [Except.map] using hrs'
        · exact hrest c hc
      · rintro ⟨hrh, hall⟩
        obtain ⟨hname, hspan⟩ := hall cell (Or.inl rfl)
        constructor
        · subst hrh
          have htd : (cell.nameOf == "td") = false := by simpa using hname
          have hrs : (rs == 1) = false := by
            rw [hsp] at hspan
            simp only [Except.map, ne_eq, Except.ok.injEq] at hspan
            simpa using hspan
          simp [htd, hrs]
        · intro c hc
          exact hall c (Or.inr hc)

mutual
/-- Every tag collected by `find_all_sub` has its name in the query list. -/
lemma find_all_sub_name_mem (names : List String) (t : PNode) :
    ∀ c ∈ find_all_sub names t, c.nameOf ∈ names := by
  cases t with
  | text s => intro c hc; simp [find_all_sub] at hc
  | tag n a cs =>
    intro c hc
    simp only [find_all_sub, List.mem_append] at hc
    rcases hc with hc | hc
    · by_cases hn : n ∈ names
      · simp only [hn, if_pos] at hc
        simp only [List.mem_singleton] at hc
        subst hc
        simpa [PNode.nameOf] using hn
      · simp [hn] at hc
    · exact find_all_list_name_mem names cs c hc

/-- Every tag collected by `find_all_list` has its name in the query list. -/
lemma find_all_list_name_mem (names : List String) (cs : List PNode) :
    ∀ c ∈ find_all_list names cs, c.nameOf ∈ names := by
  cases cs with
  | nil => intro c hc; simp [find_all_list] at hc
  | cons x xs =>
    intro c hc
    simp only [find_all_list, List.mem_append] at hc
    rcases hc with hc | hc
    · exact find_all_sub_name_mem names x c hc
    · exact find_all_list_name_mem names xs c hc
end

/-- Every tag collected by `find_all` has its name in the query list. -/
lemma find_all_name_mem (names : List String) (t : PNode) :
    ∀ c ∈ find_all names t, c.nameOf ∈ names :=
  fun c hc => find_all_list_name_mem names t.childrenOf c hc

/-- C9. For every physical table row, the sizing pass and the placement
pass compute the same row-header classification (raising identically too),
and whenever that classification returns a value `b`, `b` is `true`
exactly when every cell of the row is a `th` cell whose extracted row span
is not 1. -/
theorem C9_row_header_predicates_agree (row : PNode) :
    sizing_is_row_header row = placement_is_row_header row ∧
    ∀ b, sizing_is_row_header row = .ok b →
      (b = true ↔ ∀ c ∈ find_all ["td", "th"] row,
          c.nameOf = "th" ∧ (_get_cell_spans c).map Prod.snd ≠ .ok 1) := by
  constructor
  · exact sizing_placement_agree _ 0 true true
  · intro b h
    unfold sizing_is_row_header at h
    cases hs : sizing_cells (find_all ["td", "th"] row) 0 true with
    | error e => rw [hs] at h; cases h
    | ok p =>
      obtain ⟨n, b'⟩ := p
      rw [hs] at h
      simp only [Except.map, Except.ok.injEq] at h
      subst h
      rw [sizing_header_char _ 0 true n b' hs]
      simp only [true_and]
      constructor
      · intro hall c hc
        obtain ⟨hname, hspan⟩ := hall c hc
        have hmem := find_all_name_mem ["td", "th"] row c hc
        simp only [List.mem_cons, List.mem_singleton] at hmem
        rcases hmem with hm | hm | hm
        · exact absurd hm hname
        · exact ⟨hm, hspan⟩
        · simp at hm
      · intro hall c hc
        obtain ⟨hname, hspan⟩ := hall c hc
        exact ⟨(by rw [hname]; decide), hspan⟩

/-- A physical row whose single cell is `<th rowspan="2">x</th>`. -/
def thRow : PNode := .tag "tr" [] [.tag "th" [("rowspan", "2")] [.text "x"]]

/-- Witness for C9 at a concrete row: both classifications succeed with the
same value `true`, and the characterization holds there. -/
theorem C9_witness :
    (sizing_is_row_header thRow = placement_is_row_header thRow) ∧
    (true = true ↔ ∀ c ∈ find_all ["td", "th"] thRow,
        c.nameOf = "th" ∧ (_get_cell_spans c).map Prod.snd ≠ .ok 1) :=
  ⟨(C9_row_header_predicates_agree thRow).1,
   (C9_row_header_predicates_agree thRow).2 true rfl⟩

/-! ## The conversion state and output document model

The `DoclingDocument` is modelled as a list of `DocNode` records; the
handle (`self_ref`) of a node is its index in the list, and `add_*` calls
append.  The mutable backend attributes `self.level`, `self.parents`,
`self.ctx` and `self.content_layer` become fields of `ConvState`.

`self.level` is an `Int` (Python integers go negative on unbalanced
pops) and `self.parents` a total function `Int → Option Nat`; the model
reads a missing key as `none` where CPython would raise `KeyError`, a
corner reachable only after a nested `h1` drives the level negative. -/

/-- `TAGS_FOR_NODE_ITEMS` (lines 30-49 of the source). -/
def TAGS_FOR_NODE_ITEMS : List String :=
  ["address", "details", "h1", "h2", "h3", "h4", "h5", "h6", "p", "pre",
   "code", "ul", "ol", "li", "summary", "table", "figure", "img"]

/-- One output node of the `DoclingDocument`. -/
structure DocNode where
  label : String
  text : String := ""
  name : String := ""
  marker : String := ""
  enumerated : Bool := false
  level : Option Nat := none
  parent : Option Nat := none
  content_layer : String := "body"
  table : Option TableDataM := none
  caption : Option Nat := none
deriving Repr, DecidableEq

/-- The conversion state: the backend's mutable attributes plus the
document being built. -/
structure ConvState where
  level : Int
  parents : Int → Option Nat
  list_ordered_flag_by_ref : List (Nat × Bool)
  list_start_by_ref : List (Nat × Int)
  content_layer : String
  doc : List DocNode

/-- Point update of the parents map (`self.parents[i] = v`). -/
def update_parents (p : Int → Option Nat) (i : Int) (v : Option Nat) :
    Int → Option Nat :=
  fun j => if j = i then v else p j

/-- `len(parent.children)`: how many document nodes name `p` as parent. -/
def child_count (doc : List DocNode) (p : Nat) : Nat :=
  (doc.filter (fun n => n.parent == some p)).length

/-- `int(element.name.replace("h", ""))` for a heading tag name. -/
def heading_level (n : String) : Nat :=
  if n == "h1" then 1 else if n == "h2" then 2 else if n == "h3" then 3
  else if n == "h4" then 4 else if n == "h5" then 5 else 6

/-- The gap-filling loop of `handle_header`
(`for i in range(self.level + 1, hlevel)`): add one anonymous section
group per intermediate depth, each under slot `i - 1`, stored in slot `i`. -/
def add_header_groups : ConvState → List Int → ConvState
  | st, [] => st
  | st, i :: is =>
    let gid := st.doc.length
    let g : DocNode :=
      { label := "section", name := "header-" ++ toString i,
        parent := st.parents (i - 1), content_layer := st.content_layer }
    add_header_groups
      { st with doc := st.doc ++ [g],
                parents := update_parents st.parents i (some gid) } is

/-- `HTMLDocumentBackend.handle_header` (lines 233-275). -/
def handle_header (st0 : ConvState) (hlevel : Nat) (txt : String) : ConvState :=
  let st := { st0 with content_layer := "body" }
  if hlevel = 1 then
    let st := { st with parents := fun _ => none, level := 1 }
    let tid := st.doc.length
    { st with
      doc := st.doc ++
        [{ label := "title", text := txt, parent := none,
           content_layer := "body" }],
      parents := update_parents st.parents 1 (some tid) }
  else
    let st :=
      if st.level < (hlevel : Int) then
        let st2 := add_header_groups st (intRange (st.level + 1) (hlevel : Int))
        { st2 with level := (hlevel : Int) }
      else if (hlevel : Int) < st.level then
        { st with
          parents := fun j => if (hlevel : Int) < j then none else st.parents j,
          level := (hlevel : Int) }
      else st
    let hid := st.doc.length
    { st with
      doc := st.doc ++
        [{ label := "section_header", text := txt,
           level := some (hlevel - 1),
           parent := st.parents ((hlevel : Int) - 1),
           content_layer := st.content_layer }],
      parents := update_parents st.parents (hlevel : Int) (some hid) }

/-- `HTMLDocumentBackend.handle_paragraph` (p, address, summary). -/
def handle_paragraph (st : ConvState) (children : List PNode) : ConvState :=
  let text := pyStrip (pyTextList children)
  if text.data.isEmpty then st
  else
    { st with doc := st.doc ++
        [{ label := "text", text := text,
           parent := st.parents st.level,
           content_layer := st.content_layer }] }

/-- `HTMLDocumentBackend.handle_code` (pre, code). -/
def handle_code (st : ConvState) (children : List PNode) : ConvState :=
  let text := pyStrip (pyTextList children)
  if text.data.isEmpty then st
  else
    { st with doc := st.doc ++
        [{ label := "code", text := text,
           parent := st.parents st.level,
           content_layer := st.content_layer }] }

/-- `HTMLDocumentBackend.handle_table` (lines 506-516): parse, and add a
table node only when data came back. -/
def handle_table (st : ConvState) (element : PNode) : Except String ConvState :=
  match parse_table_data element with
  | .error e => .error e
  | .ok none => .ok st
  | .ok (some data) =>
    .ok { st with doc := st.doc ++
        [{ label := "table", table := some data,
           parent := st.parents st.level,
           content_layer := st.content_layer }] }

/-- `HTMLDocumentBackend.handle_figure`. -/
def handle_figure (st : ConvState) (element : PNode) : ConvState :=
  match find_first ["figcaption"] element with
  | none =>
    { st with doc := st.doc ++
        [{ label := "picture", parent := st.parents st.level,
           content_layer := st.content_layer }] }
  | some cap =>
    let txt := pyStrip (pyTextList cap.childrenOf)
    let cid := st.doc.length
    { st with doc := st.doc
        ++ [{ label := "caption", text := txt, parent := none,
               content_layer := st.content_layer }]
        ++ [{ label := "picture", parent := st.parents st.level,
               caption := some cid, content_layer := st.content_layer }] }

/-- `HTMLDocumentBackend.handle_image`. -/
def handle_image (st : ConvState) : ConvState :=
  { st with doc := st.doc ++
      [{ label := "picture", parent := st.parents st.level,
         content_layer := st.content_layer }] }

mutual
/-- docling `extract_text_recursively`: the joined text of a subtree,
skipping the contents of nested `ul`/`ol` lists, with a trailing space
appended per tag. -/
def extract_text_recursively : PNode → String
  | .text s => s
  | .tag n _ cs =>
      if n ∈ ["ul", "ol"] then " " else extract_text_list cs ++ " "

/-- `extract_text_recursively` over sibling subtrees. -/
def extract_text_list : List PNode → String
  | [] => ""
  | c :: cs => extract_text_recursively c ++ extract_text_list cs
end

/-- docling `get_text`: `"".join(parts) + " "`. -/
def get_text (item : PNode) : String :=
  extract_text_recursively item ++ " "

mutual
/-- The `<br>` replacement applied by `convert` before walking: every
`br` tag in the walked subtree becomes the text node `"\n"`.  (The walked
root is `body` or the document root, never itself a `br`.) -/
def replace_br : PNode → PNode
  | .text s => .text s
  | .tag n a cs =>
      if n == "br" then .text "\n" else .tag n a (replace_br_list cs)

/-- `replace_br` over sibling subtrees. -/
def replace_br_list : List PNode → List PNode
  | [] => []
  | c :: cs => replace_br c :: replace_br_list cs
end

/-- Shared pop epilogue of `handle_list`, `handle_list_item` and
`handle_details`: `self.parents[self.level + 1] = None; self.level -= 1`
(run after the incremented level, so it clears the slot one above the
pushed one, exactly as the source does). -/
def pop_slot (st : ConvState) : ConvState :=
  { st with parents := update_parents st.parents (st.level + 1) none,
            level := st.level - 1 }

/-- Pre-walk part of `HTMLDocumentBackend.handle_list` (lines 302-324):
read orderedness and the `start` attribute, create the list group node,
register the list context, and push the group as parent. -/
def handle_list_enter (st : ConvState) (name : String)
    (attrs : List (String × String)) : ConvState :=
  let is_ordered := name == "ol"
  let start : Option Int :=
    if is_ordered then
      match attrs.lookup "start" with
      | some s => if pyIsNumeric s then some ((digitsToNat s.data : Nat) : Int)
                  else none
      | none => none
    else none
  let gname :=
    if is_ordered then
      "ordered list"
        ++ (match start with | some v => " start " ++ toString v | none => "")
    else "list"
  let gid := st.doc.length
  { st with
    doc := st.doc ++
      [{ label := "list", name := gname,
         parent := st.parents st.level,
         content_layer := st.content_layer }],
    parents := update_parents st.parents (st.level + 1) (some gid),
    list_ordered_flag_by_ref := (gid, is_ordered) :: st.list_ordered_flag_by_ref,
    list_start_by_ref :=
      (match start with
       | some v => if is_ordered then (gid, v) :: st.list_start_by_ref
                   else st.list_start_by_ref
       | none => st.list_start_by_ref),
    level := st.level + 1 }

/-- `enumerated` for a list item under parent handle `p`. -/
def list_item_enumerated (st : ConvState) (p : Nat) : Bool :=
  (st.list_ordered_flag_by_ref.lookup p).getD false

/-- The item marker (lines 340-343): non-empty only when the parent group
is ordered and a start value is registered and that value is truthy
(Python `if enumerated and (start := ...get(...)):`, under which a
registered start of 0 falls through to the empty marker). -/
def list_item_marker (st : ConvState) (p : Nat) : String :=
  match st.list_start_by_ref.lookup p with
  | some s =>
      if list_item_enumerated st p && s != 0 then
        toString (s + (child_count st.doc p : Int)) ++ "."
      else ""
  | none => ""

/-- The list-item node emitted by `handle_list_item`. -/
def list_item_node (st : ConvState) (p : Nat) (text : String) : DocNode :=
  { label := "list_item", text := text,
    enumerated := list_item_enumerated st p,
    marker := list_item_marker st p, parent := some p,
    content_layer := st.content_layer }

/-- The flattened own-text of a list item that contains a nested list
(lines 346-351): recursive extraction skipping nested lists, newlines
removed, whitespace collapsed, trimmed. -/
def li_nested_text (name : String) (attrs : List (String × String))
    (children : List PNode) : String :=
  pyStrip (pyCollapseWs (String.mk
    ((get_text (.tag name attrs children)).data.filter
      (fun c => c != (Char.ofNat 10) && c != (Char.ofNat 13)))))

/-- Pre-walk part of `HTMLDocumentBackend.handle_details`: create the
`details` section group and push it. -/
def details_enter (st : ConvState) : ConvState :=
  let gid := st.doc.length
  { st with
    doc := st.doc ++
      [{ label := "section", name := "details",
         parent := st.parents st.level,
         content_layer := st.content_layer }],
    parents := update_parents st.parents (st.level + 1) (some gid),
    level := st.level + 1 }

mutual
/-- `HTMLDocumentBackend.analyze_tag` (lines 175-195): dispatch one child
element by tag name.  The bodies of the recursive handlers
(`handle_list`, `handle_list_item`, `handle_details`) are written inline
around their `walk` calls, their non-recursive parts factored into the
named helpers above. -/
def analyze_tag (st : ConvState) : PNode → Except String ConvState
  | .text _ => .ok st
  | .tag name attrs children =>
    if name ∈ ["h1", "h2", "h3", "h4", "h5", "h6"] then
      .ok (handle_header st (heading_level name) (pyStrip (pyTextList children)))
    else if name ∈ ["p", "address", "summary"] then
      .ok (handle_paragraph st children)
    else if name ∈ ["pre", "code"] then
      .ok (handle_code st children)
    else if name ∈ ["ul", "ol"] then
      -- handle_list (lines 302-329)
      match walk (handle_list_enter st name attrs) name "" children with
      | .error e => .error e
      | .ok st2 => .ok (pop_slot st2)
    else if name = "li" then
      -- handle_list_item (lines 331-380)
      match st.parents st.level with
      | none => .ok st
      | some p =>
        match find_first ["ul", "ol"] (.tag name attrs children) with
        | some _ =>
          let text := li_nested_text name attrs children
          if text.data.isEmpty then walk st name "" children
          else
            let st2 := { st with
              doc := st.doc ++ [list_item_node st p text],
              parents := update_parents st.parents (st.level + 1)
                           (some st.doc.length),
              level := st.level + 1 }
            match walk st2 name "" children with
            | .error e => .error e
            | .ok st3 => .ok (pop_slot st3)
        | none =>
          let text := pyStrip (pyTextList children)
          if text.data.isEmpty then .ok st
          else .ok { st with doc := st.doc ++ [list_item_node st p text] }
    else if name = "table" then
      handle_table st (.tag name attrs children)
    else if name = "figure" then
      .ok (handle_figure st (.tag name attrs children))
    else if name = "img" then
      .ok (handle_image st)
    else if name = "details" then
      -- handle_details (lines 218-231)
      match walk (details_enter st) "details" "" children with
      | .error e => .error e
      | .ok st2 => .ok (pop_slot st2)
    else
      walk st name "" children

/-- `HTMLDocumentBackend.walk` (lines 140-173): iterate the children of a
tag, dispatching tag children and accumulating floating text into
`buffer`; the buffer is flushed when the current text node has no
following sibling at all or some following sibling tag is in
`TAGS_FOR_NODE_ITEMS`, and the flush emits a text node only when the
trimmed buffer is non-empty and the walked tag is a `div`. -/
def walk (st : ConvState) (tagName : String) (buffer : String) :
    List PNode → Except String ConvState
  | [] => .ok st
  | el :: rest =>
    match el with
    | .tag _ _ _ =>
      match analyze_tag st el with
      | .error e => .error e
      | .ok st2 => walk st2 tagName buffer rest
    | .text s =>
      let buf := buffer ++ s
      if rest.isEmpty
          || (rest.filter PNode.isTag).any
               (fun item => TAGS_FOR_NODE_ITEMS.contains item.nameOf) then
        let t := pyStrip buf
        let st2 :=
          if !t.data.isEmpty && tagName == "div" then
            { st with doc := st.doc ++
                [{ label := "text", text := t,
                   parent := st.parents st.level,
                   content_layer := st.content_layer }] }
          else st
        walk st2 tagName "" rest
      else walk st tagName buf rest
end

/-- The backend attributes that survive between `convert` calls on one
`HTMLDocumentBackend` instance: `self.level`, `self.parents`, `self.ctx`
(the two list-context maps) and `self.content_layer`.  `convert`
overwrites `self.ctx` (line 131) and `self.content_layer` (line 128) at
the start of every call but leaves `self.level` and `self.parents` as the
previous conversion left them. -/
structure BackendState where
  level : Int
  parents : Int → Option Nat
  list_ordered_flag_by_ref : List (Nat × Bool) := []
  list_start_by_ref : List (Nat × Int) := []
  content_layer : String := "body"

/-- The state `__init__` leaves on a fresh backend: level 0, all parent
slots `None`, empty list context. -/
def init_backend : BackendState :=
  { level := 0, parents := fun _ => none }

/-- The backend state left behind by a finished conversion. -/
def backend_of (st : ConvState) : BackendState :=
  { level := st.level, parents := st.parents,
    list_ordered_flag_by_ref := st.list_ordered_flag_by_ref,
    list_start_by_ref := st.list_start_by_ref,
    content_layer := st.content_layer }

/-- `HTMLDocumentBackend.convert` (lines 107-138): select `body` (falling
back to the whole tree), replace `br` tags by newlines, compute the
content layer from a lookahead for headings, reset the list context, and
walk.  The hierarchy level and parents map are taken from the incoming
backend state — `convert` does not reset them. -/
def convert (bs : BackendState) (soup : PNode) : Except String ConvState :=
  let content0 := match find_first ["body"] soup with
                  | some b => b
                  | none => soup
  let content := replace_br content0
  let layer := match find_first ["h1", "h2", "h3", "h4", "h5", "h6"] content with
               | none => "body"
               | some _ => "furniture"
  let st : ConvState :=
    { level := bs.level, parents := bs.parents,
      list_ordered_flag_by_ref := [], list_start_by_ref := [],
      content_layer := layer, doc := [] }
  walk st content.nameOf "" content.childrenOf

/-! ## C8: nested tables are skipped -/

/-- C8. A table element containing another table anywhere inside it makes
`parse_table_data` return no data, and `handle_table` then adds nothing to
the document and returns normally (the conversion continues). -/
theorem C8_nested_table_skipped (st : ConvState) (t nt : PNode)
    (h : find_first ["table"] t = some nt) :
    parse_table_data t = .ok none ∧ handle_table st t = .ok st := by
  constructor
  · unfold parse_table_data
    rw [h]
  · unfold handle_table parse_table_data
    rw [h]

/-- A table with a table nested inside a cell. -/
def nestedTable : PNode := .tag "table" [] [
  .tag "tr" [] [.tag "td" [] [
    .tag "table" [] [.tag "tr" [] [.tag "td" [] [.text "inner"]]]]]]

/-- A fresh conversion state (level 0, empty document). -/
def conv0 : ConvState :=
  { level := 0, parents := fun _ => none, list_ordered_flag_by_ref := [],
    list_start_by_ref := [], content_layer := "body", doc := [] }

/-- Witness for C8 at a concrete nested table. -/
theorem C8_witness :
    parse_table_data nestedTable = .ok none
    ∧ handle_table conv0 nestedTable = .ok conv0 :=
  C8_nested_table_skipped conv0 nestedTable
    (.tag "table" [] [.tag "tr" [] [.tag "td" [] [.text "inner"]]]) rfl

/-! ## C3: the conversion mutates the input tree -/

mutual
/-- A subtree containing no `br` tag is unchanged by the `br`-replacement
pass of `convert`. -/
lemma replace_br_id (t : PNode) :
    find_all_sub ["br"] t = [] → replace_br t = t := by
  cases t with
  | text s => intro _; rfl
  | tag n a cs =>
    intro h
    simp only [find_all_sub, List.append_eq_nil] at h
    obtain ⟨h1, h2⟩ := h
    have hn : n ≠ "br" := by
      intro hbr
      subst hbr
      simp at h1
    simp only [replace_br, show (n == "br") = false by simpa using hn,
      Bool.false_eq_true, if_false]
    rw [replace_br_list_id cs h2]

/-- List version of `replace_br_id`. -/
lemma replace_br_list_id (cs : List PNode) :
    find_all_list ["br"] cs = [] → replace_br_list cs = cs := by
  cases cs with
  | nil => intro _; rfl
  | cons c rest =>
    intro h
    simp only [find_all_list, List.append_eq_nil] at h
    obtain ⟨h1, h2⟩ := h
    simp only [replace_br_list]
    rw [replace_br_id c h1, replace_br_list_id rest h2]
end

mutual
/-- A subtree containing no `inline-formula` tag is unchanged by the
inline-formula rewriting pass of `parse_table_data`. -/
lemma rewrite_formulas_id (t : PNode) :
    find_all_sub ["inline-formula"] t = [] → rewrite_formulas t = t := by
  cases t with
  | text s => intro _; rfl
  | tag n a cs =>
    intro h
    simp only [find_all_sub, List.append_eq_nil] at h
    obtain ⟨h1, h2⟩ := h
    have hn : n ≠ "inline-formula" := by
      intro hf
      subst hf
      simp at h1
    simp only [rewrite_formulas, show (n == "inline-formula") = false by simpa using hn,
      Bool.false_eq_true, if_false]
    rw [rewrite_formulas_list_id cs h2]

/-- List version of `rewrite_formulas_id`. -/
lemma rewrite_formulas_list_id (cs : List PNode) :
    find_all_list ["inline-formula"] cs = [] → rewrite_formulas_list cs = cs := by
  cases cs with
  | nil => intro _; rfl
  | cons c rest =>
    intro h
    simp only [find_all_list, List.append_eq_nil] at h
    obtain ⟨h1, h2⟩ := h
    simp only [rewrite_formulas_list]
    rw [rewrite_formulas_id c h1, rewrite_formulas_list_id rest h2]
end

/-- A `div` containing a `br` element. -/
def brTree : PNode := .tag "div" [] [.tag "br" [] [], .text "x"]

/-- A table cell containing an inline formula. -/
def formulaCell : PNode :=
  .tag "td" [] [.tag "inline-formula" [] [.text "a$$x$$b"]]

/-- C3 counterexample.  The conversion does mutate the input tree:
`convert` replaces every `br` element under the walked root by the text
node `"\n"` (lines 124-125, applied to the tree via `replace_br` before
walking), and `parse_table_data` rewrites `inline-formula` elements inside
table cells (lines 468-472, `rewrite_formulas`).  On `brTree` and
`formulaCell` the trees after conversion differ from the inputs. -/
theorem C3_counterexample :
    replace_br brTree = .tag "div" [] [.text "\n", .text "x"]
    ∧ replace_br brTree ≠ brTree
    ∧ rewrite_formulas formulaCell = .tag "td" [] [.text "$$x$$"]
    ∧ rewrite_formulas formulaCell ≠ formulaCell := by
  refine ⟨rfl, ?_, rfl, ?_⟩
  · intro h
    rw [show replace_br brTree = .tag "div" [] [.text "\n", .text "x"] from rfl] at h
    simp [brTree] at h
  · intro h
    rw [show rewrite_formulas formulaCell = .tag "td" [] [.text "$$x$$"] from rfl] at h
    simp [formulaCell] at h

/-- C3 amended.  The two mutation passes are the only ones: a tree with no
`br` element and no `inline-formula` element anywhere (itself included) is
left untouched by both passes, so the conversion never mutates such a
tree. -/
theorem C3_amended_no_mutation (t : PNode)
    (hbr : find_all_sub ["br"] t = [])
    (hf : find_all_sub ["inline-formula"] t = []) :
    replace_br t = t ∧ rewrite_formulas t = t :=
  ⟨replace_br_id t hbr, rewrite_formulas_id t hf⟩

/-- Witness for the amended C3 at a concrete `br`-free, formula-free
tree. -/
theorem C3_amended_witness :
    replace_br (PNode.tag "div" [] [.text "x", .tag "p" [] [.text "y"]])
        = .tag "div" [] [.text "x", .tag "p" [] [.text "y"]]
    ∧ rewrite_formulas (PNode.tag "div" [] [.text "x", .tag "p" [] [.text "y"]])
        = .tag "div" [] [.text "x", .tag "p" [] [.text "y"]] :=
  C3_amended_no_mutation (PNode.tag "div" [] [.text "x", .tag "p" [] [.text "y"]])
    rfl rfl

/-! ## C7: state across conversions -/

/-- The document produced by a conversion result (empty on error). -/
def doc_of (r : Except String ConvState) : List DocNode :=
  match r with
  | .ok s => s.doc
  | .error _ => []

instance (l : List PNode) : Decidable (l = []) :=
  match l with
  | [] => isTrue rfl
  | _ :: _ => isFalse (by simp)

/-- `<div><h2>T</h2></div>`: a conversion that leaves level 2 and
non-null parent slots on the backend. -/
def h2Tree : PNode := .tag "div" [] [.tag "h2" [] [.text "T"]]

/-- `<div><p>Hello</p></div>`. -/
def pTree : PNode := .tag "div" [] [.tag "p" [] [.text "Hello"]]

/-- C7 counterexample.  Running `convert` on a paragraph document after a
previous conversion (of an `h2` document) on the same backend yields a
different document than running it on a fresh backend: the paragraph is
attached to a stale parent handle left in `self.parents` by the earlier
conversion, because `convert` resets neither `self.level` nor
`self.parents`. -/
theorem C7_counterexample :
    doc_of ((convert init_backend h2Tree).bind
        (fun s => convert (backend_of s) pTree))
      ≠ doc_of (convert init_backend pTree) := by
  decide

/-- C7 amended.  What `convert` does reset: the output of `convert`
depends on the incoming backend state only through `self.level` and
`self.parents` — the list-context maps and the content-layer flag left by
an earlier conversion are overwritten at the start of every call (lines
128-131) and cannot influence the result.  `self.level` and
`self.parents`, by contrast, are not reset (see the counterexample). -/
theorem C7_amended (bs1 bs2 : BackendState) (soup : PNode)
    (hl : bs1.level = bs2.level) (hp : bs1.parents = bs2.parents) :
    convert bs1 soup = convert bs2 soup := by
  unfold convert
  rw [hl, hp]

/-- Witness for the amended C7: stale list-context entries and a stale
content-layer flag on the backend do not change the conversion result. -/
theorem C7_witness :
    convert { init_backend with
              list_ordered_flag_by_ref := [(0, true)],
              list_start_by_ref := [(0, 9)],
              content_layer := "furniture" } pTree
      = convert init_backend pTree :=
  C7_amended _ init_backend pTree rfl rfl

/-! ## C6: when floating text is flushed -/

/-- The claim's reading of the flush rule, as a second model of `walk`:
flush when the text node has no following sibling or when the next
sibling element (the first following tag, rather than any following tag)
is in `TAGS_FOR_NODE_ITEMS`.  Tag children are dispatched through the
real `analyze_tag`. -/
def walk_spec_next (st : ConvState) (tagName : String) (buffer : String) :
    List PNode → Except String ConvState
  | [] => .ok st
  | el :: rest =>
    match el with
    | .tag _ _ _ =>
      match analyze_tag st el with
      | .error e => .error e
      | .ok st2 => walk_spec_next st2 tagName buffer rest
    | .text s =>
      let buf := buffer ++ s
      if rest.isEmpty
          || (match (rest.filter PNode.isTag).head? with
              | some item => TAGS_FOR_NODE_ITEMS.contains item.nameOf
              | none => false) then
        let t := pyStrip buf
        let st2 :=
          if !t.data.isEmpty && tagName == "div" then
            { st with doc := st.doc ++
                [{ label := "text", text := t,
                   parent := st.parents st.level,
                   content_layer := st.content_layer }] }
          else st
        walk_spec_next st2 tagName "" rest
      else walk_spec_next st tagName buf rest

/-- Children where the two flush rules disagree: the text node's next
sibling element is a `span` (not node-producing), but a later sibling is a
`p` (node-producing). -/
def c6Children : List PNode :=
  [.text " x ", .tag "span" [] [], .tag "p" [] [.text "hi"]]

/-- C6 counterexample.  On `c6Children` (inside a `div`), the source walk
flushes at the text node — its `any` ranges over all following sibling
tags, and the later `p` is node-producing — and emits the floating text
`"x"`; under the claim's rule (flush only when the *next* sibling element
is node-producing) the buffer would never be flushed and no `"x"` node
would be emitted.  The two runs produce different documents, so the claim
as stated is false of the code. -/
theorem C6_counterexample :
    (walk conv0 "div" "" c6Children).map
        (fun s => s.doc.map (fun n => (n.label, n.text)))
      = .ok [("text", "x"), ("text", "hi")]
    ∧ (walk_spec_next conv0 "div" "" c6Children).map
        (fun s => s.doc.map (fun n => (n.label, n.text)))
      = .ok [("text", "hi")]
    ∧ doc_of (walk conv0 "div" "" c6Children)
      ≠ doc_of (walk_spec_next conv0 "div" "" c6Children) := by
  refine ⟨rfl, rfl, by decide⟩

/-- The flush condition of the source, phrased as a proposition. -/
lemma walk_flush_cond_iff (rest : List PNode) :
    (rest.isEmpty
      || (rest.filter PNode.isTag).any
           (fun item => TAGS_FOR_NODE_ITEMS.contains item.nameOf)) = true
    ↔ (rest = [] ∨ ∃ item ∈ rest, item.isTag = true
        ∧ item.nameOf ∈ TAGS_FOR_NODE_ITEMS) := by
  simp [List.isEmpty_iff, List.any_eq_true, List.mem_filter, and_assoc]

/-- The emission condition of the source, phrased as a proposition. -/
lemma walk_emit_cond_iff (t tagName : String) :
    (!t.data.isEmpty && tagName == "div") = true ↔ (t ≠ "" ∧ tagName = "div") := by
  constructor
  · intro h
    simp only [Bool.and_eq_true, Bool.not_eq_true', beq_iff_eq] at h
    obtain ⟨h1, h2⟩ := h
    refine ⟨?_, h2⟩
    intro hts
    subst hts
    simp at h1
  · rintro ⟨h1, rfl⟩
    have hd : t.data.isEmpty = false := by
      cases t with
      | mk d =>
        cases d with
        | nil => exact absurd rfl h1
        | cons c cs => rfl
    simp [hd]

/-- C6 amended.  One-step characterization of `walk` at a text node:
the buffer is flushed exactly when the text node has no following sibling
at all or **some** following sibling element is node-producing (not just
the next one); a flush emits a text node exactly when the trimmed
accumulated text is non-empty and the walked element is a `div`, and
otherwise the accumulated text is dropped. -/
theorem C6_amended (st : ConvState) (tagName buffer s : String)
    (rest : List PNode) :
    walk st tagName buffer (.text s :: rest) =
      if rest = [] ∨ ∃ item ∈ rest, item.isTag = true
          ∧ item.nameOf ∈ TAGS_FOR_NODE_ITEMS then
        walk (if pyStrip (buffer ++ s) ≠ "" ∧ tagName = "div" then
                { st with doc := st.doc ++
                    [{ label := "text", text := pyStrip (buffer ++ s),
                       parent := st.parents st.level,
                       content_layer := st.content_layer }] }
              else st) tagName "" rest
      else walk st tagName (buffer ++ s) rest := by
  rw [walk]
  by_cases hcond : rest = [] ∨ ∃ item ∈ rest, item.isTag = true
      ∧ item.nameOf ∈ TAGS_FOR_NODE_ITEMS
  · rw [if_pos hcond]
    have hb : (rest.isEmpty
        || (rest.filter PNode.isTag).any
             (fun item => TAGS_FOR_NODE_ITEMS.contains item.nameOf)) = true :=
      (walk_flush_cond_iff rest).mpr hcond
    rw [hb]
    simp only [if_true]
    by_cases hemit : pyStrip (buffer ++ s) ≠ "" ∧ tagName = "div"
    · rw [if_pos hemit]
      have he : (!(pyStrip (buffer ++ s)).data.isEmpty && tagName == "div") = true :=
        (walk_emit_cond_iff _ _).mpr hemit
      rw [he]
      simp
    · rw [if_neg hemit]
      have he : (!(pyStrip (buffer ++ s)).data.isEmpty && tagName == "div") = false := by
        rw [← Bool.not_eq_true]
        intro hc
        exact hemit ((walk_emit_cond_iff _ _).mp hc)
      rw [he]
      simp
  · rw [if_neg hcond]
    have hb : (rest.isEmpty
        || (rest.filter PNode.isTag).any
             (fun item => TAGS_FOR_NODE_ITEMS.contains item.nameOf)) = false := by
      rw [← Bool.not_eq_true]
      intro hc
      exact hcond ((walk_flush_cond_iff rest).mp hc)
    rw [hb]
    simp

/-! ## C5: ordered-list markers -/

/-- `<div><ol start="5"><li>a</li><li>b</li><li>c</li></ol></div>`. -/
def olTree : PNode := .tag "div" [] [.tag "ol" [("start", "5")] [
  .tag "li" [] [.text "a"], .tag "li" [] [.text "b"], .tag "li" [] [.text "c"]]]

/-- `<div><ol start="0"><li>a</li></ol></div>`. -/
def olTree0 : PNode := .tag "div" [] [.tag "ol" [("start", "0")] [
  .tag "li" [] [.text "a"]]]

/-- C5 counterexample.  `start="0"` is numeric, so 0 is registered as the
group's start value, and the group is ordered; the claim then requires
the first item's marker to be `"0."`.  But the source guards the marker
with the truthiness of the start value
(`if enumerated and (start := ...get(...)):`), and `0` is falsy in
Python, so the emitted marker is the empty string. -/
theorem C5_counterexample :
    (convert init_backend olTree0).map
        (fun s => (s.doc.map (fun n => (n.label, n.marker, n.enumerated)),
                   s.list_ordered_flag_by_ref, s.list_start_by_ref))
      = .ok ([("list", "", false), ("list_item", "", true)],
             [(0, true)], [(0, 0)]) := rfl

/-- C5 amended.  The marker of an emitted list item: when the enclosing
group is ordered and has a registered **non-zero** start value `s`, the
marker is `"{s + number_of_children_already_under_the_group}."`; when the
group is not ordered, or no start is registered, or the registered start
is 0, the marker is empty.  The emitted node carries exactly this marker,
and the ordered list with `start="5"` and three items yields markers
`"5."`, `"6."`, `"7."` in order. -/
theorem C5_amended :
    (∀ (st : ConvState) (p : Nat) (s : Int),
        list_item_enumerated st p = true →
        st.list_start_by_ref.lookup p = some s → s ≠ 0 →
        list_item_marker st p
          = toString (s + (child_count st.doc p : Int)) ++ ".")
    ∧ (∀ (st : ConvState) (p : Nat),
        (list_item_enumerated st p = false
          ∨ st.list_start_by_ref.lookup p = none
          ∨ st.list_start_by_ref.lookup p = some 0) →
        list_item_marker st p = "")
    ∧ (∀ (st : ConvState) (p : Nat) (text : String),
        (list_item_node st p text).marker = list_item_marker st p)
    ∧ ((convert init_backend olTree).map
          (fun st => st.doc.map (fun n => (n.label, n.marker)))
        = .ok [("list", ""), ("list_item", "5."), ("list_item", "6."),
               ("list_item", "7.")]) := by
  refine ⟨?_, ?_, fun _ _ _ => rfl, rfl⟩
  · intro st p s henum hlook hs
    unfold list_item_marker
    rw [hlook, henum]
    have hs' : (s != 0) = true := by simpa using hs
    simp [hs']
  · intro st p h
    rcases h with h | h | h
    · unfold list_item_marker
      cases hlook : st.list_start_by_ref.lookup p with
      | none => rfl
      | some s => rw [h]; rfl
    · unfold list_item_marker
      rw [h]
    · unfold list_item_marker
      rw [h]
      simp

/-- A conversion state holding one ordered list group (handle 0) with
registered start 5. -/
def listSt : ConvState :=
  { conv0 with list_ordered_flag_by_ref := [(0, true)],
               list_start_by_ref := [(0, 5)],
               doc := [{ label := "list" }] }

/-- Witness for the amended C5: with start 5 and no children yet the
marker is `"5."`; with a registered start of 0 it is empty. -/
theorem C5_witness :
    list_item_marker listSt 0
      = toString ((5 : Int) + (child_count listSt.doc 0 : Int)) ++ "."
    ∧ list_item_marker { listSt with list_start_by_ref := [(0, 0)] } 0 = "" :=
  ⟨C5_amended.1 listSt 0 5 rfl rfl (by decide),
   C5_amended.2.1 _ 0 (Or.inr (Or.inr rfl))⟩

/-! ## C4: heading gap filling -/

/-- An empty integer range. -/
lemma intRange_self (a : Int) : intRange a a = [] := by
  simp [intRange, intRangeAux]

/-- Cons form of an integer range of length `n + 1`. -/
lemma intRange_cons (a : Int) (n : Nat) :
    intRange a (a + ((n : Int) + 1)) = a :: intRange (a + 1) ((a + 1) + (n : Int)) := by
  unfold intRange
  have h1 : (a + ((n : Int) + 1) - a).toNat = n + 1 := by omega
  have h2 : ((a + 1) + (n : Int) - (a + 1)).toNat = n := by omega
  rw [h1, h2]
  rfl

/-- Loop invariant of `add_header_groups` over the consecutive run
`intRange a (a + count)`: `count` section groups are appended; slot
`a + i` receives the `i`-th group; every other slot, the level, the
content layer and the list context are untouched; and the `i`-th group
names depth `a + i` and is parented at the slot `a + i - 1` held when it
was created. -/
lemma add_header_groups_spec (count : Nat) :
    ∀ (st : ConvState) (a : Int),
    (∃ tail : List DocNode,
        (add_header_groups st (intRange a (a + count))).doc = st.doc ++ tail
        ∧ tail.length = count)
    ∧ (add_header_groups st (intRange a (a + count))).level = st.level
    ∧ (add_header_groups st (intRange a (a + count))).content_layer
        = st.content_layer
    ∧ (add_header_groups st (intRange a (a + count))).list_ordered_flag_by_ref
        = st.list_ordered_flag_by_ref
    ∧ (add_header_groups st (intRange a (a + count))).list_start_by_ref
        = st.list_start_by_ref
    ∧ (∀ j : Int, (j < a ∨ a + count ≤ j) →
        (add_header_groups st (intRange a (a + count))).parents j = st.parents j)
    ∧ (∀ i : Nat, i < count →
        (add_header_groups st (intRange a (a + count))).parents (a + i)
          = some (st.doc.length + i))
    ∧ (∀ i : Nat, i < count →
        (add_header_groups st (intRange a (a + count))).doc.get?
            (st.doc.length + i)
          = some { label := "section",
                   name := "header-" ++ toString (a + (i : Int)),
                   parent := (if i = 0 then st.parents (a - 1)
                              else some (st.doc.length + i - 1)),
                   content_layer := st.content_layer }) := by
  induction count with
  | zero =>
    intro st a
    rw [show a + ((0 : Nat) : Int) = a by omega, intRange_self]
    refine ⟨⟨[], by rw [List.append_nil]; rfl, rfl⟩, rfl, rfl, rfl, rfl,
      fun j _ => rfl, fun i hi => absurd hi (by omega), fun i hi => absurd hi (by omega)⟩
  | succ n ih =>
    intro st a
    rw [show a + ((n + 1 : Nat) : Int) = a + ((n : Int) + 1) by omega, intRange_cons]
    rw [show (a + 1) + (n : Int) = (a + 1) + ((n : Nat) : Int) by omega]
    simp only [add_header_groups]
    set g : DocNode :=
      { label := "section", name := "header-" ++ toString a,
        parent := st.parents (a - 1), content_layer := st.content_layer } with hg
    set st1 : ConvState :=
      { st with doc := st.doc ++ [g],
                parents := update_parents st.parents a (some st.doc.length) } with hst1
    obtain ⟨⟨tail, htail, hlen⟩, hlev, hlay, hof, hsf, huntouched, hslots, hnodes⟩ :=
      ih st1 (a + 1)
    refine ⟨⟨g :: tail, ?_, by simp [hlen]⟩, by rw [hlev], by rw [hlay],
      by rw [hof], by rw [hsf], ?_, ?_, ?_⟩
    · rw [htail]; simp [hst1]
    · intro j hj
      rw [huntouched j (by omega)]
      simp only [hst1, update_parents]
      rw [if_neg (by omega)]
    · intro i hi
      cases i with
      | zero =>
        rw [show a + ((0 : Nat) : Int) = a by omega]
        rw [huntouched a (by omega)]
        show update_parents st.parents a (some st.doc.length) a = _
        rw [update_parents, if_pos rfl]
        norm_num
      | succ k =>
        have hs := hslots k (by omega)
        rw [show (a + 1) + (k : Int) = a + ((k + 1 : Nat) : Int) by omega] at hs
        rw [hs]
        have hl1 : st1.doc.length = st.doc.length + 1 := by
          simp [hst1]
        rw [hl1]
        congr 1
        omega
    · intro i hi
      cases i with
      | zero =>
        have hget : (add_header_groups st1
            (intRange (a + 1) ((a + 1) + ((n : Nat) : Int)))).doc.get?
              (st.doc.length + 0) = some g := by
          rw [htail]
          simp only [hst1]
          rw [List.append_assoc, List.get?_append_right (by omega)]
          simp
        rw [hget, hg]
        rw [show a + ((0 : Nat) : Int) = a by omega]
        rfl
      | succ k =>
        have hn := hnodes k (by omega)
        have hl1 : st1.doc.length = st.doc.length + 1 := by
          simp [hst1]
        rw [hl1] at hn
        rw [show st.doc.length + 1 + k = st.doc.length + (k + 1) by omega] at hn
        rw [hn]
        have hname : a + 1 + (k : Int) = a + ((k + 1 : Nat) : Int) := by omega
        have hparent : (if k = 0 then st1.parents (a + 1 - 1)
            else some (st.doc.length + (k + 1) - 1))
            = (if k + 1 = 0 then st.parents (a - 1)
               else some (st.doc.length + (k + 1) - 1)) := by
          cases k with
          | zero =>
            rw [if_pos rfl, if_neg (Nat.succ_ne_zero 0)]
            rw [show a + 1 - 1 = a by omega]
            show update_parents st.parents a (some st.doc.length) a = _
            rw [update_parents, if_pos rfl]
            norm_num
          | succ m =>
            rw [if_neg (Nat.succ_ne_zero m), if_neg (Nat.succ_ne_zero (m + 1))]
        rw [hname, hparent]

/-- The `h > L` transition of `handle_header` for a non-title heading:
one anonymous section group per intermediate depth `i ∈ (L+1 .. h-1)`,
each stored in slot `i` as a child of slot `i-1`; the level becomes `h`;
the heading node carries external level `h-1` and sits under slot `h-1`;
slots at or below `L` are untouched. -/
lemma handle_header_gap_spec (st : ConvState) (L h : Nat) (txt : String)
    (hL : st.level = (L : Int)) (h2 : 2 ≤ h) (hLh : L < h) :
    (handle_header st h txt).level = (h : Int)
    ∧ (handle_header st h txt).doc.length = st.doc.length + (h - L)
    ∧ (∀ i : Nat, L + 1 ≤ i → i < h →
        (handle_header st h txt).parents (i : Int)
          = some (st.doc.length + (i - L - 1)))
    ∧ (∀ i : Nat, L + 1 ≤ i → i < h →
        (handle_header st h txt).doc.get? (st.doc.length + (i - L - 1))
          = some { label := "section", name := "header-" ++ toString (i : Int),
                   parent := (handle_header st h txt).parents ((i : Int) - 1),
                   content_layer := "body" })
    ∧ (handle_header st h txt).parents (h : Int)
        = some (st.doc.length + (h - L) - 1)
    ∧ (handle_header st h txt).doc.get? (st.doc.length + (h - L) - 1)
        = some { label := "section_header", text := txt, level := some (h - 1),
                 parent := (handle_header st h txt).parents ((h : Int) - 1),
                 content_layer := "body" }
    ∧ (∀ j : Int, j ≤ (L : Int) →
        (handle_header st h txt).parents j = st.parents j) := by
  have hcount : (h : Int) = ((L : Int) + 1) + ((h - L - 1 : Nat) : Int) := by omega
  have hhh : handle_header st h txt =
      { add_header_groups { st with content_layer := "body" }
          (intRange ((L : Int) + 1) (((L : Int) + 1) + ((h - L - 1 : Nat) : Int))) with
        level := (h : Int),
        doc := (add_header_groups { st with content_layer := "body" }
            (intRange ((L : Int) + 1)
              (((L : Int) + 1) + ((h - L - 1 : Nat) : Int)))).doc
          ++ [{ label := "section_header", text := txt, level := some (h - 1),
                parent := (add_header_groups { st with content_layer := "body" }
                    (intRange ((L : Int) + 1)
                      (((L : Int) + 1) + ((h - L - 1 : Nat) : Int)))).parents
                  ((h : Int) - 1),
                content_layer := (add_header_groups { st with content_layer := "body" }
                    (intRange ((L : Int) + 1)
                      (((L : Int) + 1) + ((h - L - 1 : Nat) : Int)))).content_layer }],
        parents := update_parents
          (add_header_groups { st with content_layer := "body" }
              (intRange ((L : Int) + 1)
                (((L : Int) + 1) + ((h - L - 1 : Nat) : Int)))).parents
          (h : Int)
          (some (add_header_groups { st with content_layer := "body" }
              (intRange ((L : Int) + 1)
                (((L : Int) + 1) + ((h - L - 1 : Nat) : Int)))).doc.length) } := by
    simp only [handle_header]
    rw [if_neg (by omega : ¬ h = 1), hL,
        if_pos (by omega : (L : Int) < (h : Int)), ← hcount]
  set A := add_header_groups { st with content_layer := "body" }
      (intRange ((L : Int) + 1) (((L : Int) + 1) + ((h - L - 1 : Nat) : Int))) with hA
  obtain ⟨⟨tail, htail, hlen⟩, hlev, hlay, hof, hsf, huntouched, hslots, hnodes⟩ :=
    add_header_groups_spec (h - L - 1) { st with content_layer := "body" }
      ((L : Int) + 1)
  rw [← hA] at htail hlay huntouched hslots hnodes
  rw [show ({ st with content_layer := "body" } : ConvState).doc = st.doc from rfl]
    at htail hslots hnodes
  rw [show ({ st with content_layer := "body" } : ConvState).parents = st.parents
        from rfl] at huntouched hnodes
  rw [show ({ st with content_layer := "body" } : ConvState).content_layer = "body"
        from rfl] at hlay hnodes
  have hAlen : A.doc.length = st.doc.length + (h - L - 1) := by
    rw [htail]
    simp [hlen]
  rw [hhh]
  refine ⟨rfl, ?_, ?_, ?_, ?_, ?_, ?_⟩
  · show (A.doc ++ _).length = _
    rw [htail]
    simp only [List.length_append, List.length_cons, List.length_nil, hlen]
    omega
  · intro i hi1 hi2
    show update_parents A.parents (h : Int) (some A.doc.length) (i : Int) = _
    rw [update_parents, if_neg (by omega : ¬ (i : Int) = (h : Int))]
    rw [show (i : Int) = ((L : Int) + 1) + ((i - L - 1 : Nat) : Int) by omega]
    rw [hslots (i - L - 1) (by omega)]
  · intro i hi1 hi2
    show (A.doc ++ _).get? (st.doc.length + (i - L - 1)) = _
    rw [List.get?_append (by omega)]
    rw [show st.doc.length + (i - L - 1)
          = st.doc.length + (i - L - 1) from rfl]
    rw [hnodes (i - L - 1) (by omega)]
    have hii : ((L : Int) + 1) + ((i - L - 1 : Nat) : Int) = (i : Int) := by omega
    rw [hii]
    show _ = some { label := "section", name := "header-" ++ toString (i : Int),
                    parent := update_parents A.parents (h : Int)
                                (some A.doc.length) ((i : Int) - 1),
                    content_layer := "body" }
    rw [update_parents, if_neg (by omega : ¬ (i : Int) - 1 = (h : Int))]
    rcases Nat.eq_or_lt_of_le hi1 with heq | hlt
    · rw [if_pos (by omega : i - L - 1 = 0)]
      rw [show ((L : Int) + 1) - 1 = (L : Int) by omega]
      rw [show (i : Int) - 1 = (L : Int) by omega]
      rw [huntouched (L : Int) (by omega)]
    · rw [if_neg (by omega : ¬ i - L - 1 = 0)]
      rw [show (i : Int) - 1 = ((L : Int) + 1) + ((i - 1 - L - 1 : Nat) : Int)
            by omega]
      rw [hslots (i - 1 - L - 1) (by omega)]
      have : st.doc.length + (i - L - 1) - 1 = st.doc.length + (i - 1 - L - 1) := by
        omega
      rw [this]
  · show update_parents A.parents (h : Int) (some A.doc.length) (h : Int) = _
    rw [update_parents, if_pos rfl, hAlen]
    have : st.doc.length + (h - L - 1) = st.doc.length + (h - L) - 1 := by omega
    rw [this]
  · show (A.doc ++ _).get? (st.doc.length + (h - L) - 1) = _
    have hidx : st.doc.length + (h - L) - 1 = A.doc.length := by
      rw [hAlen]; omega
    rw [hidx, List.get?_append_right (le_refl _), Nat.sub_self]
    show some _ = _
    rw [hlay]
    show _ = some { label := "section_header", text := txt, level := some (h - 1),
                    parent := update_parents A.parents (h : Int)
                                (some A.doc.length) ((h : Int) - 1),
                    content_layer := "body" }
    rw [update_parents, if_neg (by omega : ¬ (h : Int) - 1 = (h : Int))]
  · intro j hj
    show update_parents A.parents (h : Int) (some A.doc.length) j = _
    rw [update_parents, if_neg (by omega : ¬ j = (h : Int))]
    exact huntouched j (by omega)

/-- Parent-chain depth of a document node: fuel-bounded walk up the
`parent` links (1 for a root node, one more per link). -/
def chain_depth (doc : List DocNode) : Nat → Nat → Nat
  | 0, _ => 0
  | fuel + 1, i =>
    match doc.get? i with
    | none => 0
    | some nd =>
      match nd.parent with
      | none => 1
      | some p => 1 + chain_depth doc fuel p

/-- `<div><h1>T</h1><h3>B</h3><h2>C</h2></div>`. -/
def hTree : PNode := .tag "div" [] [.tag "h1" [] [.text "T"],
  .tag "h3" [] [.text "B"], .tag "h2" [] [.text "C"]]

/-- C4.  The `h > L` heading transition creates one anonymous section
group per intermediate depth `i ∈ (L+1 .. h-1)`, each a child of slot
`i-1` and stored in slot `i`, sets `L = h`, and creates the heading with
external level `h-1` under slot `h-1` (stored in slot `h`); and on the
heading sequence h1, h3, h2 a single depth-2 group is synthesized for the
h3, while the final h2 ends up under the title with parent-chain
depth 2. -/
theorem C4_heading_gap_filling :
    (∀ (st : ConvState) (L h : Nat) (txt : String),
      st.level = (L : Int) → 2 ≤ h → L < h →
      (handle_header st h txt).level = (h : Int)
      ∧ (handle_header st h txt).doc.length = st.doc.length + (h - L)
      ∧ (∀ i : Nat, L + 1 ≤ i → i < h →
          (handle_header st h txt).parents (i : Int)
            = some (st.doc.length + (i - L - 1)))
      ∧ (∀ i : Nat, L + 1 ≤ i → i < h →
          (handle_header st h txt).doc.get? (st.doc.length + (i - L - 1))
            = some { label := "section", name := "header-" ++ toString (i : Int),
                     parent := (handle_header st h txt).parents ((i : Int) - 1),
                     content_layer := "body" })
      ∧ (handle_header st h txt).parents (h : Int)
          = some (st.doc.length + (h - L) - 1)
      ∧ (handle_header st h txt).doc.get? (st.doc.length + (h - L) - 1)
          = some { label := "section_header", text := txt, level := some (h - 1),
                   parent := (handle_header st h txt).parents ((h : Int) - 1),
                   content_layer := "body" }
      ∧ (∀ j : Int, j ≤ (L : Int) →
          (handle_header st h txt).parents j = st.parents j))
    ∧ ((convert init_backend hTree).map
          (fun s => s.doc.map (fun n => (n.label, n.name, n.text, n.level, n.parent)))
        = .ok [("title", "", "T", none, none),
               ("section", "header-2", "", none, some 0),
               ("section_header", "", "B", some 2, some 1),
               ("section_header", "", "C", some 1, some 0)])
    ∧ ((convert init_backend hTree).map (fun s => chain_depth s.doc 4 3)
        = .ok 2) := by
  exact ⟨fun st L h txt hL h2 hLh => handle_header_gap_spec st L h txt hL h2 hLh,
         rfl, rfl⟩

/-- The backend state right after an `h1` was handled: level 1, slot 1
holding the title node (handle 0). -/
def c4St : ConvState :=
  { conv0 with level := 1,
               parents := fun j => if j = 1 then some 0 else none,
               doc := [{ label := "title", text := "T" }] }

/-- Witness for C4: from the post-`h1` state, an `h3` synthesizes the
depth-2 group (stored in slot 2, child of slot 1) and places the heading
with external level 2. -/
theorem C4_witness :
    (handle_header c4St 3 "B").level = ((3 : Nat) : Int)
    ∧ (handle_header c4St 3 "B").parents ((2 : Nat) : Int)
        = some (c4St.doc.length + (2 - 1 - 1))
    ∧ (handle_header c4St 3 "B").doc.get? (c4St.doc.length + (2 - 1 - 1))
        = some { label := "section", name := "header-" ++ toString ((2 : Nat) : Int),
                 parent := (handle_header c4St 3 "B").parents (((2 : Nat) : Int) - 1),
                 content_layer := "body" } := by
  obtain ⟨h1, hlen, hslots, hnodes, h5, h6, h7⟩ :=
    C4_heading_gap_filling.1 c4St 1 3 "B" rfl (by decide) (by decide)
  exact ⟨h1, hslots 2 (by decide) (by decide), hnodes 2 (by decide) (by decide)⟩

/-! ## C1 amended: no overlap when every row span is 1 -/

/-- The extracted column span of a cell (0 when extraction raises; only
used under hypotheses that make extraction succeed). -/
def cell_colspan (c : PNode) : Nat :=
  match _get_cell_spans c with
  | .ok (cs, _) => cs
  | .error _ => 0

/-- Total column span of a cell list. -/
def colsum (cells : List PNode) : Nat :=
  (cells.map cell_colspan).sum

/-- Every cell of the list extracts to `(colspan, 1)`: no row-spanning
cells. -/
def unit_row_spans (cells : List PNode) : Prop :=
  ∀ c ∈ cells, _get_cell_spans c = .ok (cell_colspan c, 1)

/-- Number of rows that are not row-header rows, under unit row spans:
exactly the rows with at least one cell. -/
def data_row_count (rows : List PNode) : Nat :=
  (rows.filter (fun r => !(find_all ["td", "th"] r).isEmpty)).length

/-- The `num_cols` fold of the sizing pass. -/
def max_colsum (rows : List PNode) (nc : Nat) : Nat :=
  rows.foldl (fun acc r => max acc (colsum (find_all ["td", "th"] r))) nc

/-- Under unit row spans, the sizing inner loop returns the summed column
span, and classifies the row as a header row exactly when it has no
cells. -/
lemma sizing_cells_unit (cells : List PNode) (hu : unit_row_spans cells) :
    ∀ (c0 : Nat) (b : Bool),
      sizing_cells cells c0 b = .ok (c0 + colsum cells, b && cells.isEmpty) := by
  induction cells with
  | nil => intro c0 b; simp [sizing_cells, colsum]
  | cons c rest ih =>
    intro c0 b
    have hc := hu c (List.mem_cons_self c rest)
    have hrest : unit_row_spans rest := fun x hx => hu x (List.mem_cons_of_mem c hx)
    simp only [sizing_cells, hc]
    rw [ih hrest]
    simp only [List.isEmpty_cons, Bool.and_false]
    have : (c.nameOf == "td" || (1 : Int) == 1) = true := by simp
    rw [this]
    simp only [Bool.not_true, Bool.and_false, colsum, List.map_cons, List.sum_cons]
    rw [Bool.false_and, Nat.add_assoc]

/-- Under unit row spans, the placement classification loop: the row is a
row-header row exactly when it has no cells. -/
lemma placement_header_unit (cells : List PNode) (hu : unit_row_spans cells) :
    ∀ (ch rh : Bool),
      placement_header cells ch rh
        = .ok (ch && !(cells.any (fun c => c.nameOf == "td")),
               rh && cells.isEmpty) := by
  induction cells with
  | nil => intro ch rh; simp [placement_header]
  | cons c rest ih =>
    intro ch rh
    have hc := hu c (List.mem_cons_self c rest)
    have hrest : unit_row_spans rest := fun x hx => hu x (List.mem_cons_of_mem c hx)
    simp only [placement_header, hc]
    cases htd : (c.nameOf == "td") with
    | true =>
      rw [if_pos (by simpa using htd)]
      rw [ih hrest]
      simp [htd]
    | false =>
      rw [if_neg (by simp [htd]), if_pos (by decide : ((1 : Int) == 1) = true)]
      rw [ih hrest]
      simp [htd]

/-- Under unit row spans, the sizing outer loop counts non-empty rows and
folds the maximal column sum. -/
lemma sizing_rows_unit (rows : List PNode)
    (hu : ∀ row ∈ rows, unit_row_spans (find_all ["td", "th"] row)) :
    ∀ (nr nc : Nat),
      sizing_rows rows nr nc
        = .ok (nr + data_row_count rows, max_colsum rows nc) := by
  induction rows with
  | nil => intro nr nc; simp [sizing_rows, data_row_count, max_colsum]
  | cons r rest ih =>
    intro nr nc
    have hr := hu r (List.mem_cons_self r rest)
    have hrest : ∀ row ∈ rest, unit_row_spans (find_all ["td", "th"] row) :=
      fun x hx => hu x (List.mem_cons_of_mem r hx)
    simp only [sizing_rows]
    rw [sizing_cells_unit _ hr 0 true]
    simp only [Nat.zero_add, Bool.true_and]
    rw [ih hrest]
    simp only [data_row_count, max_colsum, List.filter_cons, List.foldl_cons]
    cases he : (find_all ["td", "th"] r).isEmpty with
    | true => simp [he]
    | false =>
      simp only [he, Bool.not_false, Bool.false_eq_true, if_false, if_true,
        List.length_cons, Except.ok.injEq, Prod.mk.injEq]
      exact ⟨by omega, trivial⟩

/-- The initial accumulator is below the folded maximum. -/
lemma le_max_colsum_init (rows : List PNode) :
    ∀ nc : Nat, nc ≤ max_colsum rows nc := by
  induction rows with
  | nil => intro nc; simp [max_colsum]
  | cons r rest ih =>
    intro nc
    simp only [max_colsum, List.foldl_cons]
    exact le_trans (le_max_left _ _) (ih _)

/-- Each row's column sum is below the folded maximum. -/
lemma le_max_colsum_mem (rows : List PNode) :
    ∀ (nc : Nat) (r : PNode), r ∈ rows →
      colsum (find_all ["td", "th"] r) ≤ max_colsum rows nc := by
  induction rows with
  | nil => intro nc r hr; simp at hr
  | cons x rest ih =>
    intro nc r hr
    simp only [max_colsum, List.foldl_cons]
    rcases List.mem_cons.mp hr with rfl | hr
    · exact le_trans (le_max_right _ _) (le_max_colsum_init rest _)
    · exact ih _ r hr

/-- Occupancy shape of one grid row: length `n`, occupied exactly on
`[0, f)`. -/
def row_state (rowL : List (Option String)) (f n : Nat) : Prop :=
  rowL.length = n
  ∧ (∀ j, j < f → ∃ s, rowL.get? j = some (some s))
  ∧ (∀ j, f ≤ j → j < n → rowL.get? j = some none)

/-- Reading a grid at a valid natural row index. -/
lemma pyGetRow_nat (grid : Grid) (rn : Nat) (h : rn < grid.length) :
    pyGetRow grid (rn : Int) = .ok (grid.getD rn []) := by
  unfold pyGetRow
  rw [if_pos]
  · simp
  · constructor
    · omega
    · exact_mod_cast h

/-- The column-cursor loop stops exactly at the filled prefix. -/
lemma advance_col_stops (grid : Grid) (r : Int) (numCols : Nat)
    (rowL : List (Option String)) (f : Nat)
    (hr : pyGetRow grid r = .ok rowL) (hf : f ≤ numCols)
    (hs : row_state rowL f numCols) :
    ∀ (fuel colIdx : Nat), colIdx ≤ f → f - colIdx < fuel →
      advance_col grid r numCols fuel colIdx = .ok f := by
  intro fuel
  induction fuel with
  | zero => intro colIdx _ hlt; omega
  | succ fuel ih =>
    intro colIdx hle hlt
    obtain ⟨hlen, hocc, hfree⟩ := hs
    rw [advance_col]
    by_cases hcol : colIdx < numCols
    · rw [if_pos hcol, hr]
      rcases Nat.eq_or_lt_of_le hle with rfl | hcf
      · have hg : rowL.get? colIdx = some none := hfree colIdx (le_refl _) hcol
        simp only [pyGetCell, hg]
      · obtain ⟨s, hsj⟩ := hocc colIdx hcf
        simp only [pyGetCell, hsj]
        exact ih (colIdx + 1) (by omega) (by omega)
    · rw [if_neg hcol]
      have : colIdx = f := by omega
      rw [this]

/-- Write `some text` into a row at columns `[col, col + k)`. -/
def set_range (rowL : List (Option String)) (col : Nat) (text : String) :
    Nat → List (Option String)
  | 0 => rowL
  | k + 1 => (set_range rowL col text k).set (col + k) (some text)

/-- `set_range` preserves length. -/
lemma set_range_length (rowL : List (Option String)) (col : Nat)
    (text : String) : ∀ k, (set_range rowL col text k).length = rowL.length := by
  intro k
  induction k with
  | zero => rfl
  | succ k ih => simp [set_range, ih]

/-- `set_range` leaves positions outside `[col, col + k)` unchanged. -/
lemma set_range_get_out (rowL : List (Option String)) (col : Nat)
    (text : String) : ∀ k j, (j < col ∨ col + k ≤ j) →
      (set_range rowL col text k).get? j = rowL.get? j := by
  intro k
  induction k with
  | zero => intro j _; rfl
  | succ k ih =>
    intro j hj
    simp only [set_range]
    rw [List.get?_set_ne _ _ (by omega)]
    exact ih j (by omega)

/-- `set_range` fills positions inside `[col, col + k)` (when in range). -/
lemma set_range_get_in (rowL : List (Option String)) (col : Nat)
    (text : String) : ∀ k j, col ≤ j → j < col + k → j < rowL.length →
      (set_range rowL col text k).get? j = some (some text) := by
  intro k
  induction k with
  | zero => intro j _ h _; omega
  | succ k ih =>
    intro j h1 h2 h3
    simp only [set_range]
    by_cases hj : j = col + k
    · subst hj
      rw [List.get?_set_eq_of_lt]
      rw [set_range_length]
      exact h3
    · rw [List.get?_set_ne _ _ (by omega)]
      exact ih j h1 (by omega) h3

/-- Overwriting an entry with its current value is the identity. -/
lemma list_set_self {α : Type} (l : List α) (i : Nat) (d : α)
    (h : i < l.length) : l.set i (l.getD i d) = l := by
  apply List.ext_get?
  intro n
  by_cases hn : i = n
  · subst hn
    rw [List.get?_eq_getElem?, List.getElem?_set_self h,
      List.getD_eq_getElem?_getD, List.getElem?_eq_getElem h]
    simp [List.get?_eq_getElem?, List.getElem?_eq_getElem h]
  · rw [List.get?_eq_getElem?, List.getElem?_set, if_neg hn, List.get?_eq_getElem?]

/-- Reading back a just-written entry. -/
lemma list_getD_set_self {α : Type} (l : List α) (i : Nat) (a d : α)
    (h : i < l.length) : (l.set i a).getD i d = a := by
  rw [List.getD_eq_getElem?_getD, List.getElem?_set_self h]
  rfl

/-- Writing a grid cell at a valid natural row index. -/
lemma pySetGrid_nat (grid : Grid) (rn : Nat) (j : Nat) (v : Option String)
    (h : rn < grid.length) :
    pySetGrid grid (rn : Int) j v
      = .ok (grid.set rn ((grid.getD rn []).set j v)) := by
  unfold pySetGrid
  rw [if_pos (by constructor <;> omega)]
  simp

/-- Bind of an `ok` value reduces. -/
lemma except_bind_ok {a b : Type} (x : a) (f : a → Except String b) :
    (Except.ok x >>= f) = f x := rfl

/-- The inner marking fold over the column range writes `some text` into
columns `[col, col + k)` of row `rn`. -/
lemma mark_cols (rn col numRows numCols : Nat) (text : String) :
    ∀ (k : Nat) (grid : Grid), grid.length = numRows → rn < numRows →
      col + k ≤ numCols →
      (List.range k).foldlM (fun g2 c =>
        if (rn : Int) + 0 < (numRows : Int) ∧ col + c < numCols then
          pySetGrid g2 ((rn : Int) + 0) (col + c) (some text)
        else .ok g2) grid
      = .ok (grid.set rn (set_range (grid.getD rn []) col text k)) := by
  intro k
  induction k with
  | zero =>
    intro grid hlen hrn _
    simp only [List.range_zero, List.foldlM_nil, set_range]
    rw [list_set_self _ _ _ (by omega)]
    rfl
  | succ k ih =>
    intro grid hlen hrn hcb
    rw [List.range_succ, List.foldlM_append]
    rw [ih grid hlen hrn (by omega)]
    rw [except_bind_ok]
    simp only [List.foldlM_cons, List.foldlM_nil]
    rw [if_pos (by refine ⟨by omega, by omega⟩)]
    rw [show ((rn : Int) + 0) = (rn : Int) by omega]
    rw [pySetGrid_nat _ _ _ _ (by simp [hlen]; omega)]
    rw [except_bind_ok]
    rw [list_getD_set_self _ _ _ _ (by simp [hlen]; omega)]
    rw [List.set_set]
    simp only [set_range]
    rfl

/-- `mark_grid` for a single-row span: fills `[col, col + cs)` of row
`rn`. -/
lemma mark_grid_unit (grid : Grid) (rn : Nat) (col cs numRows numCols : Nat)
    (text : String)
    (hlen : grid.length = numRows) (hrn : rn < numRows)
    (hcb : col + cs ≤ numCols) :
    mark_grid (rn : Int) col numRows numCols text [(0 : Int)] cs grid
      = .ok (grid.set rn (set_range (grid.getD rn []) col text cs)) := by
  unfold mark_grid
  simp only [List.foldlM_cons, List.foldlM_nil]
  rw [mark_cols rn col numRows numCols text cs grid hlen hrn hcb]
  rfl

/-- Properties of a cell emitted while placing data row `rn` with the
filled prefix growing from `lo` to `hi`. -/
def emitted_cell_props (rn lo hi : Nat) (c : TableCellM) : Prop :=
  c.start_row_offset_idx = (rn : Int)
  ∧ c.end_row_offset_idx = (rn : Int) + 1
  ∧ (lo : Int) ≤ c.start_col_offset_idx
  ∧ c.start_col_offset_idx ≤ c.end_col_offset_idx
  ∧ c.end_col_offset_idx ≤ (hi : Int)

/-- Placing the cells of one data row under unit row spans: the cursor
walks the filled prefix, cells are laid out consecutively from the
prefix boundary, only row `rn` of the grid changes, and no access
raises. -/
lemma place_cells_unit (rn numRows numCols : Nat) (ch : Bool)
    (hrn : rn < numRows) :
    ∀ (cells : List PNode) (grid : Grid) (colIdx f : Nat)
      (acc : List TableCellM),
      unit_row_spans cells →
      grid.length = numRows →
      row_state (grid.getD rn []) f numCols →
      colIdx ≤ f → f + colsum cells ≤ numCols →
      ∃ (grid2 : Grid) (emitted : List TableCellM),
        place_cells (rn : Int) 0 false ch numRows numCols cells grid colIdx acc
          = .ok (grid2, acc ++ emitted)
        ∧ (∀ c ∈ emitted, emitted_cell_props rn f (f + colsum cells) c)
        ∧ emitted.Pairwise
            (fun a b => a.end_col_offset_idx ≤ b.start_col_offset_idx)
        ∧ grid2.length = numRows
        ∧ (∀ r' : Nat, r' ≠ rn → grid2.getD r' [] = grid.getD r' []) := by
  intro cells
  induction cells with
  | nil =>
    intro grid colIdx f acc _ hlen hrow _ _
    refine ⟨grid, [], ?_, ?_, ?_, hlen, fun r' _ => rfl⟩
    · simp [place_cells]
    · intro c hc; simp at hc
    · exact List.Pairwise.nil
  | cons c rest ih =>
    intro grid colIdx f acc hu hlen hrow hci hbound
    have hc := hu c (List.mem_cons_self c rest)
    have hrest : unit_row_spans rest := fun x hx => hu x (List.mem_cons_of_mem c hx)
    have hcolsum : colsum (c :: rest) = cell_colspan c + colsum rest := by
      simp [colsum]
    have hf_le : f ≤ numCols := by omega
    have hr : pyGetRow grid (rn : Int) = .ok (grid.getD rn []) :=
      pyGetRow_nat grid rn (by omega)
    simp only [place_cells, hc]
    rw [show ((rn : Int) + ((0 : Nat) : Int)) = (rn : Int) by simp]
    rw [show (if (false : Bool) = true then (1 : Int) - 1 else 1) = 1 from rfl]
    simp only [advance_col_stops grid (rn : Int) numCols (grid.getD rn []) f hr
        hf_le hrow (numCols + 1) colIdx hci (by omega)]
    rw [show intRange ((0 : Nat) : Int) (((0 : Nat) : Int) + 1) = [(0 : Int)]
          from rfl]
    simp only [mark_grid_unit grid rn f (cell_colspan c) numRows numCols
        (pyText (rewrite_formulas c)) hlen hrn (by omega)]
    set rowL2 := set_range (grid.getD rn []) f (pyText (rewrite_formulas c))
      (cell_colspan c) with hrowL2
    set grid2 := grid.set rn rowL2 with hgrid2
    have hlen2 : grid2.length = numRows := by
      rw [hgrid2]; simp [hlen]
    have hget2 : grid2.getD rn [] = rowL2 :=
      list_getD_set_self _ _ _ _ (by omega)
    have hrow2 : row_state (grid2.getD rn []) (f + cell_colspan c) numCols := by
      rw [hget2]
      obtain ⟨hl, hocc, hfree⟩ := hrow
      refine ⟨by rw [hrowL2, set_range_length, hl], ?_, ?_⟩
      · intro j hj
        by_cases hjf : j < f
        · obtain ⟨s, hsj⟩ := hocc j hjf
          exact ⟨s, by rw [hrowL2, set_range_get_out _ _ _ _ _ (by omega), hsj]⟩
        · refine ⟨pyText (rewrite_formulas c), ?_⟩
          rw [hrowL2]
          exact set_range_get_in _ _ _ _ _ (by omega) (by omega) (by omega)
      · intro j hj1 hj2
        rw [hrowL2, set_range_get_out _ _ _ _ _ (by omega)]
        exact hfree j (by omega) hj2
    set cEmit : TableCellM :=
      { text := pyText (rewrite_formulas c), row_span := 1,
        col_span := (cell_colspan c : Int),
        start_row_offset_idx := ((0 : Nat) : Int) + (rn : Int),
        end_row_offset_idx := ((0 : Nat) : Int) + (rn : Int) + 1,
        start_col_offset_idx := (f : Int),
        end_col_offset_idx := (f : Int) + (cell_colspan c : Int),
        column_header := ch,
        row_header := !ch && c.nameOf == "th" } with hcEmit
    obtain ⟨gridF, emitted, heq, hprops, hpw, hlenF, hpresF⟩ :=
      ih grid2 f (f + cell_colspan c) (acc ++ [cEmit]) hrest hlen2 hrow2
        (by omega) (by omega)
    refine ⟨gridF, cEmit :: emitted, ?_, ?_, ?_, hlenF, ?_⟩
    · rw [heq]
      simp
    · intro x hx
      rcases List.mem_cons.mp hx with rfl | hx
      · refine ⟨by simp [hcEmit], by simp [hcEmit], ?_, ?_, ?_⟩
        · rw [hcEmit]
        · rw [hcEmit]
          show (f : Int) ≤ (f : Int) + (cell_colspan c : Int)
          push_cast
          omega
        · rw [hcEmit]
          show (f : Int) + (cell_colspan c : Int) ≤ _
          rw [hcolsum]
          push_cast
          omega
      · obtain ⟨p1, p2, p3, p4, p5⟩ := hprops x hx
        refine ⟨p1, p2, ?_, p4, ?_⟩
        · refine le_trans ?_ p3
          push_cast
          omega
        · refine le_trans p5 ?_
          rw [hcolsum]
          push_cast
          omega
    · refine List.Pairwise.cons ?_ hpw
      intro b hb
      have h3 := (hprops b hb).2.2.1
      refine le_trans ?_ h3
      rw [hcEmit]
      show (f : Int) + (cell_colspan c : Int) ≤ _
      push_cast
      omega
    · intro r' hne
      rw [hpresF r' hne, hgrid2]
      rw [List.getD_eq_getElem?_getD, List.getElem?_set,
        if_neg (fun h => hne h.symm), ← List.getD_eq_getElem?_getD]

/-- Separation of two emitted cells: the second lies in a strictly later
row, or in the same row strictly to the right. -/
def cell_sep (a b : TableCellM) : Prop :=
  a.end_row_offset_idx ≤ b.start_row_offset_idx
  ∨ (a.start_row_offset_idx = b.start_row_offset_idx
      ∧ a.end_col_offset_idx ≤ b.start_col_offset_idx)

/-- Placing all rows under unit row spans: starting with `d` data rows
already placed and all grid rows from `d` on still blank, the pass
succeeds and the newly emitted cells are pairwise separated, each in data
row `d` or later. -/
lemma place_rows_unit (numRows numCols : Nat) :
    ∀ (rows : List PNode) (grid : Grid) (d srs : Nat) (acc : List TableCellM),
      (∀ row ∈ rows, unit_row_spans (find_all ["td", "th"] row)) →
      (∀ row ∈ rows, colsum (find_all ["td", "th"] row) ≤ numCols) →
      d + data_row_count rows ≤ numRows →
      grid.length = numRows →
      (∀ rn : Nat, d ≤ rn → rn < numRows →
        row_state (grid.getD rn []) 0 numCols) →
      ∃ emitted : List TableCellM,
        place_rows numRows numCols rows grid ((d : Int) - 1) srs acc
          = .ok (acc ++ emitted)
        ∧ emitted.Pairwise cell_sep
        ∧ (∀ x ∈ emitted, (d : Int) ≤ x.start_row_offset_idx
            ∧ x.end_row_offset_idx = x.start_row_offset_idx + 1) := by
  intro rows
  induction rows with
  | nil =>
    intro grid d srs acc _ _ _ _ _
    exact ⟨[], by simp [place_rows], List.Pairwise.nil, by simp⟩
  | cons row rest ih =>
    intro grid d srs acc hu hcs hcount hlen hvirgin
    have hurow := hu row (List.mem_cons_self row rest)
    have hurest : ∀ r ∈ rest, unit_row_spans (find_all ["td", "th"] r) :=
      fun x hx => hu x (List.mem_cons_of_mem row hx)
    have hcsrest : ∀ r ∈ rest, colsum (find_all ["td", "th"] r) ≤ numCols :=
      fun x hx => hcs x (List.mem_cons_of_mem row hx)
    cases he : (find_all ["td", "th"] row).isEmpty with
    | true =>
      have hcells : find_all ["td", "th"] row = [] := by
        simpa [List.isEmpty_iff] using he
      have hclass : placement_header ([] : List PNode) true true
          = .ok (true, true) := rfl
      have hstep : place_rows numRows numCols (row :: rest) grid
            ((d : Int) - 1) srs acc
          = place_rows numRows numCols rest grid ((d : Int) - 1) (srs + 1) acc := by
        simp [place_rows, hclass, hcells, place_cells]
      rw [hstep]
      have hcount' : d + data_row_count rest ≤ numRows := by
        have : data_row_count (row :: rest) = data_row_count rest := by
          simp [data_row_count, List.filter_cons, he]
        omega
      exact ih grid d (srs + 1) acc hurest hcsrest hcount' hlen hvirgin
    | false =>
      have hdatacount : data_row_count (row :: rest) = data_row_count rest + 1 := by
        simp [data_row_count, List.filter_cons, he]
      have hdlt : d < numRows := by omega
      have hclass : placement_header (find_all ["td", "th"] row) true true
          = .ok (!((find_all ["td", "th"] row).any
                    fun c => c.nameOf == "td"), false) := by
        rw [placement_header_unit _ hurow true true, he]
        rfl
      obtain ⟨grid2, rowEmitted, heq2, hprops2, hpw2, hlen2, hpres2⟩ :=
        place_cells_unit d numRows numCols
          (!((find_all ["td", "th"] row).any fun c => c.nameOf == "td")) hdlt
          (find_all ["td", "th"] row) grid 0 0 [] hurow hlen
          (hvirgin d (le_refl _) hdlt) (le_refl _)
          (by simpa using hcs row (List.mem_cons_self row rest))
      have harith : ((d : Int) - 1) + 1 = (d : Int) := by omega
      have hstep : place_rows numRows numCols (row :: rest) grid
            ((d : Int) - 1) srs acc
          = place_rows numRows numCols rest grid2 ((d : Int)) 0
              (acc ++ ([] ++ rowEmitted)) := by
        simp only [place_rows, hclass]
        simp only [Bool.false_eq_true, if_false, harith]
        rw [heq2]
      rw [hstep]
      obtain ⟨emitted', heq', hpw', hrows'⟩ :=
        ih grid2 (d + 1) 0 (acc ++ ([] ++ rowEmitted)) hurest hcsrest
          (by omega) hlen2
          (fun rn h1 h2 => by
            rw [hpres2 rn (by omega)]
            exact hvirgin rn (by omega) h2)
      rw [show ((d : Nat) : Int) = (((d + 1 : Nat) : Int) - 1) by push_cast; ring]
      rw [heq']
      refine ⟨rowEmitted ++ emitted', by simp, ?_, ?_⟩
      · rw [List.pairwise_append]
        refine ⟨?_, hpw', ?_⟩
        · refine List.Pairwise.imp_of_mem ?_ hpw2
          intro a b ha hb hcol
          right
          obtain ⟨pa1, _, _, _, _⟩ := hprops2 a ha
          obtain ⟨pb1, _, _, _, _⟩ := hprops2 b hb
          exact ⟨by rw [pa1, pb1], hcol⟩
        · intro a ha b hb
          left
          obtain ⟨_, pa2, _, _, _⟩ := hprops2 a ha
          obtain ⟨q1, _⟩ := hrows' b hb
          rw [pa2]
          have hq : ((d + 1 : Nat) : Int) ≤ b.start_row_offset_idx := q1
          push_cast at hq ⊢
          omega
      · intro x hx
        rcases List.mem_append.mp hx with hx | hx
        · obtain ⟨p1, p2, _, _, _⟩ := hprops2 x hx
          exact ⟨by omega, by rw [p2, p1]⟩
        · obtain ⟨q1, q2⟩ := hrows' x hx
          refine ⟨?_, q2⟩
          have hq : ((d + 1 : Nat) : Int) ≤ x.start_row_offset_idx := q1
          push_cast at hq ⊢
          omega
/-- Separated cells have disjoint rectangles. -/
lemma cell_sep_disjoint (a b : TableCellM) (h : cell_sep a b) :
    Disjoint (cellRect a) (cellRect b) := by
  rw [Set.disjoint_left]
  intro p hpa hpb
  obtain ⟨a1, a2, a3, a4⟩ := hpa
  obtain ⟨b1, b2, b3, b4⟩ := hpb
  rcases h with h | ⟨h1, h2⟩
  · omega
  · omega

/-- Reading a replicated list inside its length. -/
lemma replicate_getD {α : Type} (a d : α) :
    ∀ (n k : Nat), k < n → (List.replicate n a).getD k d = a := by
  intro n
  induction n with
  | zero => intro k hk; omega
  | succ m ih =>
    intro k hk
    cases k with
    | zero => rfl
    | succ j => exact ih j (by omega)

/-- Indexing a replicated list inside its length. -/
lemma get_replicate_lt {α : Type} (a : α) :
    ∀ (n j : Nat), j < n → (List.replicate n a).get? j = some a := by
  intro n
  induction n with
  | zero => intro j hj; omega
  | succ m ih =>
    intro j hj
    cases j with
    | zero => rfl
    | succ i => exact ih i (by omega)

/-- A blank grid row is in the all-free occupancy state. -/
lemma row_state_replicate (n : Nat) :
    row_state (List.replicate n (none : Option String)) 0 n := by
  refine ⟨by simp, fun j hj => absurd hj (by omega), fun j _ hj => ?_⟩
  exact get_replicate_lt none n j hj

/-- C1 (amended): for every table accepted by `parse_table_data` in which
every cell's extracted row span equals 1, the offset rectangles of any
two distinct emitted table cells are disjoint. -/
theorem C1_amended_no_overlap (t : PNode) (data : TableDataM)
    (hu : ∀ row ∈ find_all ["tr"] t, unit_row_spans (find_all ["td", "th"] row))
    (hok : parse_table_data t = .ok (some data)) :
    data.table_cells.Pairwise (fun a b => Disjoint (cellRect a) (cellRect b)) := by
  rcases hff : find_first ["table"] t with _ | nt
  · simp only [parse_table_data, hff] at hok
    rw [sizing_rows_unit _ hu 0 0] at hok
    simp only [Nat.zero_add] at hok
    obtain ⟨emitted, heq, hpw, _⟩ :=
      place_rows_unit (data_row_count (find_all ["tr"] t))
        (max_colsum (find_all ["tr"] t) 0) (find_all ["tr"] t)
        (List.replicate (data_row_count (find_all ["tr"] t))
          (List.replicate (max_colsum (find_all ["tr"] t) 0) none))
        0 0 [] hu
        (fun r hr => le_max_colsum_mem _ 0 r hr)
        (by simp) (by simp)
        (fun rn _ h2 => by
          rw [replicate_getD _ _ _ _ (by simpa using h2)]
          exact row_state_replicate _)
    rw [show ((0 : Nat) : Int) - 1 = (-1 : Int) by norm_num] at heq
    simp only [List.nil_append] at heq
    rw [heq] at hok
    simp only [Except.ok.injEq, Option.some.injEq] at hok
    rw [← hok]
    exact hpw.imp (fun h => cell_sep_disjoint _ _ h)
  · simp only [parse_table_data, hff] at hok
    simp at hok

instance : DecidableEq (Except String (Nat × Int)) := fun a b =>
  match a, b with
  | .error e1, .error e2 => decidable_of_iff (e1 = e2) (by simp)
  | .error _, .ok _ => isFalse (by simp)
  | .ok _, .error _ => isFalse (by simp)
  | .ok v1, .ok v2 => decidable_of_iff (v1 = v2) (by simp)

instance (cells : List PNode) : Decidable (unit_row_spans cells) :=
  decidable_of_iff (∀ c ∈ cells, _get_cell_spans c = .ok (cell_colspan c, 1)) Iff.rfl

/-- A three-row table (header row, data row, wide data cell) in which no
cell spans rows. -/
def tableUnit : PNode := .tag "table" [] [
  .tag "tr" [] [.tag "th" [] [.text "h1"], .tag "th" [] [.text "h2"]],
  .tag "tr" [] [.tag "td" [] [.text "a"], .tag "td" [] [.text "b"]],
  .tag "tr" [] [.tag "td" [("colspan", "2")] [.text "c"]]]

/-- The `TableData` `parse_table_data` returns for `tableUnit`. -/
def tableUnitData : TableDataM :=
  { num_rows := 3, num_cols := 2, table_cells := [
    { text := "h1", row_span := 1, col_span := 1,
      start_row_offset_idx := 0, end_row_offset_idx := 1,
      start_col_offset_idx := 0, end_col_offset_idx := 1,
      column_header := true, row_header := false },
    { text := "h2", row_span := 1, col_span := 1,
      start_row_offset_idx := 0, end_row_offset_idx := 1,
      start_col_offset_idx := 1, end_col_offset_idx := 2,
      column_header := true, row_header := false },
    { text := "a", row_span := 1, col_span := 1,
      start_row_offset_idx := 1, end_row_offset_idx := 2,
      start_col_offset_idx := 0, end_col_offset_idx := 1,
      column_header := false, row_header := false },
    { text := "b", row_span := 1, col_span := 1,
      start_row_offset_idx := 1, end_row_offset_idx := 2,
      start_col_offset_idx := 1, end_col_offset_idx := 2,
      column_header := false, row_header := false },
    { text := "c", row_span := 1, col_span := 2,
      start_row_offset_idx := 2, end_row_offset_idx := 3,
      start_col_offset_idx := 0, end_col_offset_idx := 2,
      column_header := false, row_header := false }] }

/-- Concrete instance of `C1_amended_no_overlap` on `tableUnit`. -/
theorem C1_amended_witness :
    (∀ row ∈ find_all ["tr"] tableUnit, unit_row_spans (find_all ["td", "th"] row))
    ∧ parse_table_data tableUnit = .ok (some tableUnitData)
    ∧ tableUnitData.table_cells.Pairwise
        (fun a b => Disjoint (cellRect a) (cellRect b)) := by
  have hu : ∀ row ∈ find_all ["tr"] tableUnit,
      unit_row_spans (find_all ["td", "th"] row) := by decide
  exact ⟨hu, rfl, C1_amended_no_overlap tableUnit tableUnitData hu rfl⟩
